import Mathlib

/-!
# ShokoBridge: a shallow embedding of the core logic

This file embeds, in Lean 4, the core decision logic of the ShokoBridge
repository (package `shokobridge`: `bridge.py`, `file_manager.py`,
`database.py`), and proves properties about it.

Conventions of the embedding:
* Python strings are Lean `String`s; character-level work uses `String.data`.
* Python `dict.get(k)` on optional data is an `Option` field access; a
  `d[k]` subscript that can raise is modelled in the `Except PyErr` monad.
  A JSON field that is absent and a field that is present with value
  `null`/`None` are both modelled as `none` (the distinction only matters
  to code paths none of the embedded code takes).
* The filesystem on the destination side is a list of existing paths;
  the raw OS link/copy/move call's success is an oracle `linkOk` in the
  environment (covering `os.makedirs` + the link call inside the same
  `try`).  Rollback deletion (`os.remove` guarded by `os.path.exists`)
  is modelled as succeeding; in the code a deletion failure is caught and
  logged only.
* HTTP clients and the caches in front of them are pure oracles in an
  `Env` structure: the code's caches only memoize those calls, so a pure
  function is an exact model of a single run.
* Python's `str.lower` is modelled by Lean's `Char.toLower` (ASCII case
  folding); `difflib.SequenceMatcher.ratio()` is modelled exactly as the
  documented Ratcliff/Obershelp recursion over longest matching blocks
  (with exact rational arithmetic instead of floats; the `autojunk`
  heuristic, active only for strings of length >= 200, is not modelled).
-/

namespace ShokoBridge

/-! ## Python string / path primitives (`os.path`, `str`) -/

/-- Index of the last occurrence of `c` in `l`, as in Python's `str.rfind`
(but as an `Option` instead of `-1`). -/
def lastIdx (c : Char) : List Char → Option Nat
  | [] => none
  | x :: xs =>
    match lastIdx c xs with
    | some i => some (i + 1)
    | none => if x = c then some 0 else none

/-- Split a character list at every occurrence of `c` (Python
`str.split(c)`; the result always has one more part than separators). -/
def splitChar (c : Char) : List Char → List (List Char)
  | [] => [[]]
  | x :: xs =>
    match splitChar c xs with
    | [] => [[]]
    | h :: t => if x = c then [] :: h :: t else (x :: h) :: t

/-- `str.split(c)` as strings. -/
def splitCharStr (c : Char) (s : String) : List String :=
  (splitChar c s.data).map String.mk

/-- `'sep'.join(parts)`. -/
def joinWith (sep : String) : List String → String
  | [] => ""
  | p :: ps => ps.foldl (fun acc q => acc ++ sep ++ q) p

/-- `os.path.basename` for POSIX paths: everything after the last slash. -/
def pyBasename (p : String) : String :=
  match lastIdx '/' p.data with
  | none => p
  | some i => String.mk (p.data.drop (i + 1))

/-- `os.path.dirname` for POSIX paths (`posixpath.dirname`): the prefix up
to the last slash, with trailing slashes stripped unless the prefix is all
slashes. -/
def pyDirname (p : String) : String :=
  match lastIdx '/' p.data with
  | none => ""
  | some i =>
    let head := p.data.take (i + 1)
    if head.all (fun c => c = '/') then String.mk head
    else String.mk ((head.reverse.dropWhile (fun c => c = '/')).reverse)

/-- `os.path.splitext` (`genericpath._splitext`): split off the extension at
the last dot of the last path component, unless every character of the
component before that dot is itself a dot. -/
def splitext (p : String) : String × String :=
  let l := p.data
  let nameStart : Nat :=
    match lastIdx '/' l with
    | some s => s + 1
    | none => 0
  match lastIdx '.' l with
  | none => (p, "")
  | some d =>
    if nameStart ≤ d ∧ (l.drop nameStart |>.take (d - nameStart)).any (fun c => c ≠ '.') then
      (String.mk (l.take d), String.mk (l.drop d))
    else (p, "")

/-- One step of `posixpath.join`: `join(a, b)`. -/
def pyJoin (a b : String) : String :=
  if b.data.head? = some '/' then b
  else if a = "" ∨ a.data.getLast? = some '/' then a ++ b
  else a ++ "/" ++ b

/-- `os.path.join(*parts)` over a list of components. -/
def pyJoinList : List String → String
  | [] => ""
  | p :: ps => ps.foldl pyJoin p

/-- Longest common prefix length of two component lists (used by
`posixpath.relpath`). -/
def commonLen : List String → List String → Nat
  | a :: as, b :: bs => if a = b then commonLen as bs + 1 else 0
  | _, _ => 0

/-- `posixpath.relpath(path, start)` for already-absolute, already-normalized
paths: compare slash-separated components (dropping empty and `.` parts, as
`normpath` would), then climb with `..` and descend into the remainder. -/
def pyRelpath (path start : String) : String :=
  let pl := (splitCharStr '/' path).filter (fun c => c ≠ "" ∧ c ≠ ".")
  let sl := (splitCharStr '/' start).filter (fun c => c ≠ "" ∧ c ≠ ".")
  let i := commonLen pl sl
  let rel := List.replicate (sl.length - i) (".." : String) ++ pl.drop i
  if rel = [] then "." else joinWith ("/") rel

/-- Python `str(x)` for an optional integer: `str(None)` is `"None"`. -/
def strOfOptInt : Option Int → String
  | some n => toString n
  | none => "None"

/-- Python `s.zfill(2)`: left-pad with `'0'` to length 2, keeping a leading
sign in front of the padding. Strings of length >= 2 are unchanged. -/
def zfill2 (s : String) : String :=
  if 2 ≤ s.data.length then s
  else if s.data.head? = some '-' ∨ s.data.head? = some '+' then
    String.mk (s.data.take 1) ++ "0" ++ String.mk (s.data.drop 1)
  else String.mk (List.replicate (2 - s.data.length) '0') ++ s

/-- The characters `re.sub(r'[<>:"/\\|?*]', '-', name)` replaces. -/
def isBadChar (c : Char) : Bool :=
  c = '<' ∨ c = '>' ∨ c = ':' ∨ c = '"' ∨ c = '/' ∨ c = '\\' ∨ c = '|' ∨ c = '?' ∨ c = '*'

/-- One character of `ShokoBridge._clean_filename`'s substitution. -/
def cleanChar (c : Char) : Char :=
  if isBadChar c then '-' else c

/-- `ShokoBridge._clean_filename`: replace Windows-invalid characters by `-`;
a falsy (missing or empty) name becomes `"Untitled"`. -/
def cleanFilename : Option String → String
  | some s => if s = "" then "Untitled" else String.mk (s.data.map cleanChar)
  | none => "Untitled"

/-- Python `a or b` for an optional string `a` with string default `b`
(`None` and `""` are falsy). -/
def pyOrStr : Option String → String → String
  | some s, d => if s = "" then d else s
  | none, d => d

/-- `(x.get('release_date') or '').split('-')[0]`: the year prefix of an
optional ISO date. -/
def yearOf (s : Option String) : String :=
  (splitCharStr '-' (s.getD (""))).headD ("")

/-- Python `s.replace(old, new)` for single characters. -/
def strReplaceChar (s : String) (old new : Char) : String :=
  String.mk (s.data.map (fun c => if c = old then new else c))

/-- ASCII lower-casing of a string into its character list (model of
Python `str.lower()`). -/
def lowerChars (s : String) : List Char :=
  s.data.map Char.toLower

/-! ## `difflib.SequenceMatcher` ratio (Ratcliff/Obershelp) -/

/-- Length of the common prefix run of two character lists. -/
def runLen : List Char → List Char → Nat
  | a :: as, b :: bs => if a = b then runLen as bs + 1 else 0
  | _, _ => 0

/-- `SequenceMatcher.find_longest_match` over whole lists (no junk): the
`(i, j, k)` with `a[i:i+k] = b[j:j+k]`, `k` maximal, ties broken by the
smallest `i`, then the smallest `j`. -/
def bestBlock (a b : List Char) : Nat × Nat × Nat :=
  (List.range a.length).foldl
    (fun best i =>
      (List.range b.length).foldl
        (fun best j =>
          let k := runLen (a.drop i) (b.drop j)
          if best.2.2 < k then (i, j, k) else best)
        best)
    (0, 0, 0)

/-- Fuel-indexed total-matches recursion of `get_matching_blocks`: take the
longest matching block and recurse on both sides. `matchingF_fuel` below
shows any fuel of at least `a.length` computes the fixpoint. -/
def matchingF : Nat → List Char → List Char → Nat
  | 0, _, _ => 0
  | fuel + 1, a, b =>
    let t := bestBlock a b
    if t.2.2 = 0 then 0
    else
      matchingF fuel (a.take t.1) (b.take t.2.1) + t.2.2 +
        matchingF fuel (a.drop (t.1 + t.2.2)) (b.drop (t.2.1 + t.2.2))

/-- Total number of matched characters (`sum of block sizes` in
`SequenceMatcher.get_matching_blocks`). -/
def matchingTotal (a b : List Char) : Nat :=
  matchingF a.length a b

/-- `SequenceMatcher.ratio()`: `2*M / (len(a)+len(b))`, and `1.0` when both
are empty (`difflib._calculate_ratio`), as an exact rational. -/
def ratioQ (a b : List Char) : ℚ :=
  if a.length + b.length = 0 then 1
  else mkRat (2 * (matchingTotal a b : Int)) (a.length + b.length)

/-! ## Data model (Shoko / TMDb payload shapes used by the bridge) -/

/-- A Python exception class relevant to the embedded code. -/
inductive PyErr
  | keyError
  | typeError
  | indexError
deriving DecidableEq, Repr

/-- A `d[k]` subscript on an optional field: raises `KeyError` when the key
is absent. -/
def getKey {α : Type _} : Option α → Except PyErr α
  | some v => Except.ok v
  | none => Except.error PyErr.keyError

/-- One entry of a file's `SeriesIDs[i].EpisodeIDs` list. -/
structure EpisodeIDEntry where
  id : Option Int
deriving DecidableEq, Repr

/-- One entry of a file's `SeriesIDs` list.  `tmdbShow` is the value of
`entry['SeriesID']['TMDB']['Show']`; `none` models any missing key on that
chain (the code catches the resulting `KeyError`). -/
structure SeriesEntry where
  episodeIDs : List EpisodeIDEntry
  tmdbShow : Option (List Int)
deriving DecidableEq, Repr

/-- `get_file_details` payload: `Locations[i].RelativePath` strings and the
`SeriesIDs` list. -/
structure FileData where
  locations : List String
  seriesIDs : List SeriesEntry
deriving DecidableEq, Repr

/-- An inline movie object in episode details (`TMDB.Movies[i]`). -/
structure MovieStub where
  id : Option Int
  title : Option String
  releasedAt : Option String
deriving DecidableEq, Repr

/-- An inline episode object in episode details (`TMDB.Episodes[i]`). -/
structure EpStub where
  id : Option Int
  seasonNumber : Option Int
  episodeNumber : Option Int
  title : Option String
deriving DecidableEq, Repr

/-- `get_episode_details` payload: the ID cross-references, AniDB type,
display name and optional inline TMDb data. -/
structure EpDetails where
  idsTmdbMovie : List Int
  idsTmdbEpisode : List Int
  anidbType : Option String
  name : Option String
  tmdbMovies : List MovieStub
  tmdbEpisodes : List EpStub
deriving DecidableEq, Repr

/-- TMDb movie details as consumed (`title`, `release_date`). -/
structure MovieDetails where
  title : Option String
  release_date : Option String
deriving DecidableEq, Repr

/-- One element of a TMDb series' `seasons` list. -/
structure SeasonStub where
  season_number : Option Int
deriving DecidableEq, Repr

/-- One episode object of a TMDb season details list. -/
structure TmdbEpisode where
  id : Option Int
  season_number : Option Int
  episode_number : Option Int
  name : Option String
deriving DecidableEq, Repr

/-- TMDb series details as consumed (`name`, `first_air_date`, `seasons`). -/
structure SeriesData where
  name : Option String
  first_air_date : Option String
  seasons : List SeasonStub
deriving DecidableEq, Repr

/-- The episode value `_find_tv_episode` hands to `_handle_show_pathing`:
only `season_number`, `episode_number` and `name` are consumed. -/
structure FoundEp where
  season_number : Option Int
  episode_number : Option Int
  name : Option String
deriving DecidableEq, Repr

/-- A `path_mappings` config entry (`script_path`, `plex_path`). -/
structure Mapping where
  script : Option String
  plex : Option String
deriving DecidableEq, Repr

/-- The configuration slice the embedded code reads. -/
structure Config where
  destShows : String
  destMovies : Option String
  sourceRoot : String
  pathMappings : List Mapping
  useRelativeSymlinks : Bool
  titleSimilarityThreshold : ℚ
deriving DecidableEq, Repr

/-- `config['directories'].get('destination_movies') or destination`:
the effective movies root (empty string is falsy). -/
def destMoviesEff (cfg : Config) : String :=
  match cfg.destMovies with
  | some s => if s = "" then cfg.destShows else s
  | none => cfg.destShows

/-- The external world of one run: the Shoko and TMDb clients (with their
caches, hence pure functions of the request), the source-side filesystem,
and the success oracle of the raw link/copy/move syscall. -/
structure Env where
  allFileIds : List Int
  fileDetails : Int → Option FileData
  episodeDetails : Int → Option EpDetails
  seriesDetails : Int → Option SeriesData
  movieDetails : Int → Option MovieDetails
  seasonDetails : Int → Option Int → List TmdbEpisode
  sourceExists : String → Bool
  dirListing : String → List String
  linkOk : String → String → Bool

/-! ## Python `sorted(l, key=f)` with a key that may raise -/

/-- Pair every element with its key, in list order; the first raising key
access aborts (CPython's `sorted` computes all keys up front). -/
def keyed {α : Type _} (f : α → Except PyErr Int) : List α →
    Except PyErr (List (Int × α))
  | [] => Except.ok []
  | a :: l => do
    let k ← f a
    let rest ← keyed f l
    pure ((k, a) :: rest)

/-- The comparison `sorted` uses on keyed pairs. -/
def keyLe {α : Type _} (p q : Int × α) : Prop := p.1 ≤ q.1

instance {α : Type _} : DecidableRel (keyLe (α := α)) :=
  fun p q => inferInstanceAs (Decidable (p.1 ≤ q.1))

/-- Python `sorted(l, key=f)`: stable sort by key (insertion sort is
Python-stable: equal keys keep list order). -/
def sortByKeyE {α : Type _} (f : α → Except PyErr Int) (l : List α) :
    Except PyErr (List α) :=
  (keyed f l).map (fun ps => (List.insertionSort keyLe ps).map (fun p => p.2))

/-! ## The Classification & Pathing Engine (`bridge.py`) -/

/-- `_find_tv_episode`'s TMDb season scan for a direct episode-ID match:
iterate `seasons` in listed order, skip season number 0, skip seasons whose
details are unavailable, return the first episode whose `id` matches. -/
def searchSeasons (env : Env) (showId : Int) (epId : Int) :
    List SeasonStub → Option TmdbEpisode
  | [] => none
  | s :: rest =>
    if s.season_number == some 0 then searchSeasons env showId epId rest
    else
      match (env.seasonDetails showId s.season_number).find?
          (fun e => e.id == some epId) with
      | some e => some e
      | none => searchSeasons env showId epId rest

/-- The score of one fallback candidate: case-insensitive
`SequenceMatcher` ratio between the Shoko title and the TMDb episode
name (`''` when the candidate has no name). -/
def scoreOf (title : String) (e : TmdbEpisode) : ℚ :=
  ratioQ (lowerChars title) (lowerChars (e.name.getD ("")))

/-- The strict-greater best-candidate update of the fallback loop. -/
def bestStep (title : String) (b : ℚ × Option TmdbEpisode) (e : TmdbEpisode) :
    ℚ × Option TmdbEpisode :=
  if b.1 < scoreOf title e then (scoreOf title e, some e) else b

/-- One season of the title-fallback loop: skip season number 0, sort the
season's episodes by `e['episode_number']` (a raising subscript), and fold
the strict-`>` best update over them. -/
def fallbackSeasonStep (env : Env) (showId : Int) (title : String)
    (best : ℚ × Option TmdbEpisode) (season : SeasonStub) :
    Except PyErr (ℚ × Option TmdbEpisode) :=
  if season.season_number == some 0 then pure best
  else do
    let epsSorted ← sortByKeyE (fun e => getKey e.episode_number)
      (env.seasonDetails showId season.season_number)
    pure (epsSorted.foldl (bestStep title) best)

/-- `_find_tv_episode`'s title-similarity fallback (the body guarded by
`anidb_type == 'Normal'` and a non-empty title): iterate seasons sorted by
`s['season_number']` skipping number 0, episodes sorted by
`e['episode_number']`, track the best similarity with a strict `>` update,
and accept iff the best score reaches the threshold.  The success branch
subscripts `found_episode['season_number']` and `['episode_number']` (for
its log line), which raises when the winner lacks those keys or when no
candidate was ever tracked (`None[...]`). -/
def findFallback (env : Env) (cfg : Config) (showId : Int) (series : SeriesData)
    (title : String) : Except PyErr (Option TmdbEpisode) := do
  let seasonsSorted ← sortByKeyE (fun s => getKey s.season_number) series.seasons
  let best ← seasonsSorted.foldlM (fallbackSeasonStep env showId title)
    ((0 : ℚ), (none : Option TmdbEpisode))
  if cfg.titleSimilarityThreshold ≤ best.1 then
    match best.2 with
    | some fe => do
      let _ ← getKey fe.season_number
      let _ ← getKey fe.episode_number
      pure (some fe)
    | none => Except.error PyErr.typeError
  else pure none

/-- Projection of a TMDb episode to the fields `_handle_show_pathing`
consumes. -/
def toFoundEp (e : TmdbEpisode) : FoundEp :=
  ⟨e.season_number, e.episode_number, e.name⟩

/-- `_find_tv_episode`: direct TMDb-episode-ID match (inline Shoko data
first, then the season scan), then the title fallback for `'Normal'`
episodes with a title. -/
def findTvEpisode (env : Env) (cfg : Config) (ep : EpDetails) (showId : Int)
    (series : SeriesData) : Except PyErr (Option FoundEp) :=
  let direct : Option FoundEp :=
    match ep.idsTmdbEpisode with
    | [] => none
    | epId :: _ =>
      match ep.tmdbEpisodes with
      | e0 :: _ =>
        if e0.id == some epId then some ⟨e0.seasonNumber, e0.episodeNumber, e0.title⟩
        else (searchSeasons env showId epId series.seasons).map toFoundEp
      | [] => (searchSeasons env showId epId series.seasons).map toFoundEp
  match direct with
  | some fe => pure (some fe)
  | none =>
    if ep.anidbType == some "Normal" then
      match ep.name with
      | none => pure none
      | some t =>
        if t = "" then pure none
        else (findFallback env cfg showId series t).map (fun r => r.map toFoundEp)
    else pure none

/-- The `"{clean_name} ({year})"` folder template shared by shows and
movies. -/
def folderName (name : Option String) (date : Option String) : String :=
  cleanFilename name ++ " (" ++ yearOf date ++ ")"

/-- `_handle_show_pathing`: resolve the TMDb show ID from the first series
cross-reference (`KeyError`/`IndexError` on that chain is caught and yields
NoMatch), fetch series details, find the episode, then build either the
matched-episode path or the extras path.  `.ok none` is the `(None, None)`
NoMatch result. -/
def handleShowPathing (env : Env) (cfg : Config) (ep : EpDetails)
    (orig : String) (seriesIdData : List SeriesEntry) :
    Except PyErr (Option (String × String)) := do
  match seriesIdData with
  | [] => pure none
  | se :: _ =>
    match se.tmdbShow with
    | none => pure none
    | some showIds =>
      match showIds with
      | [] => pure none
      | showId :: _ =>
        match env.seriesDetails showId with
        | none => pure none
        | some series => do
          let found ← findTvEpisode env cfg ep showId series
          let showFolder := folderName series.name series.first_air_date
          match found with
          | some fe =>
            let ss := zfill2 (strOfOptInt fe.season_number)
            let es := zfill2 (strOfOptInt fe.episode_number)
            pure (some
              (pyJoin (pyJoin cfg.destShows showFolder) ("Season " ++ ss),
               showFolder ++ " - S" ++ ss ++ "E" ++ es ++ " - " ++
                 cleanFilename fe.name ++ (splitext orig).2))
          | none =>
            if ep.anidbType == some "Normal" then pure none
            else
              let extraFolder :=
                if ep.anidbType == some "Trailer" then "Trailers"
                else if ep.anidbType == some "Special" ∨ ep.anidbType == some "Credits" ∨
                    ep.anidbType == some "Parody" then "Featurettes"
                else "Other"
              let descriptive := cleanFilename (some (pyOrStr ep.name (splitext orig).1))
              pure (some
                (pyJoin (pyJoin cfg.destShows showFolder) extraFolder,
                 descriptive ++ (splitext orig).2))

/-- `_handle_movie_pathing`: prefer inline Shoko movie data whose ID
matches, else the TMDb client; NoMatch when neither yields details. -/
def handleMoviePathing (env : Env) (cfg : Config) (ep : EpDetails)
    (orig : String) (movieId : Int) : Option (String × String) :=
  let inlineData : Option MovieDetails :=
    match ep.tmdbMovies with
    | m0 :: _ => if m0.id == some movieId then some ⟨m0.title, m0.releasedAt⟩ else none
    | [] => none
  let md := match inlineData with
    | some m => some m
    | none => env.movieDetails movieId
  match md with
  | none => none
  | some m =>
    let movieFolder := folderName m.title m.release_date
    some (pyJoin (destMoviesEff cfg) movieFolder,
      movieFolder ++ (splitext orig).2)

/-- `_determine_path_and_filename`: movie when any TMDb movie ID is linked
(first one wins), otherwise TV show / extra. -/
def determinePath (env : Env) (cfg : Config) (ep : EpDetails) (orig : String)
    (seriesIdData : List SeriesEntry) : Except PyErr (Option (String × String)) :=
  match ep.idsTmdbMovie with
  | mid :: _ => pure (handleMoviePathing env cfg ep orig mid)
  | [] => handleShowPathing env cfg ep orig seriesIdData

/-! ## The File Materializer (`file_manager.py`) -/

/-- An observable filesystem mutation on the destination side. -/
inductive FsOp
  | create (p : String)
  | remove (p : String)
deriving DecidableEq, Repr

/-- `FileManager._link_single_file`: skip (success) when the destination
exists; in dry-run report success without mutation; otherwise the
configured link operation succeeds or fails per the `linkOk` oracle,
creating the destination on success. -/
def linkSingle (env : Env) (dryRun : Bool) (fs : List String) (src dst : String) :
    Bool × List String × List FsOp :=
  if fs.contains dst then (true, fs, [])
  else if dryRun then (true, fs, [])
  else if env.linkOk src dst then (true, dst :: fs, [FsOp.create dst])
  else (false, fs, [])

/-- The rollback loop of `process_file_group`: delete (when present) every
path recorded in `successfully_linked_paths`, in order. -/
def rollbackFs : List String → List String → List FsOp → List String × List FsOp
  | [], fs, ops => (fs, ops)
  | p :: acc, fs, ops =>
    if fs.contains p then
      rollbackFs acc (fs.filter (fun q => q ≠ p)) (ops ++ [FsOp.remove p])
    else rollbackFs acc fs ops

/-- Result of processing one file group: overall success, the destination
filesystem, the mutation log, and the `successfully_linked_paths`
accumulator (returned for reasoning; the code keeps it locally). -/
structure GroupResult where
  ok : Bool
  fs : List String
  ops : List FsOp
  linked : List String
deriving DecidableEq, Repr

/-- The member loop of `process_file_group`: process `(source, destination)`
pairs in order; a success (in non-dry-run) appends the destination to the
rollback accumulator; the first failure stops the loop, rolls back the
accumulator and reports group failure. -/
def groupGo (env : Env) (dryRun : Bool) :
    List String → List String → List FsOp → List (String × String) → GroupResult
  | fs, acc, ops, [] => ⟨true, fs, ops, acc⟩
  | fs, acc, ops, (src, dst) :: rest =>
    let r := linkSingle env dryRun fs src dst
    if r.1 then
      groupGo env dryRun r.2.1 (if dryRun then acc else acc ++ [dst])
        (ops ++ r.2.2) rest
    else if dryRun then ⟨false, r.2.1, ops ++ r.2.2, acc⟩
    else
      let rb := rollbackFs acc r.2.1 (ops ++ r.2.2)
      ⟨false, rb.1, rb.2, acc⟩

/-- `FileManager.find_supplemental_files`: entries of the source file's
directory whose name extends the media file's basename-without-extension,
paired with the captured extension remainder.  The per-directory cache
only memoizes `os.listdir`, so the pure `dirListing` oracle models it
exactly. -/
def findSupplementalFiles (env : Env) (mediaPath : String) : List (String × String) :=
  if ¬ env.sourceExists mediaPath then []
  else
    let dir := pyDirname mediaPath
    let nm := pyBasename mediaPath
    let base := (splitext nm).1
    (env.dirListing dir).filterMap
      (fun f =>
        if base.data.isPrefixOf f.data ∧ f ≠ nm then
          some (pyJoin dir f, String.mk (f.data.drop base.data.length))
        else none)

/-- The member list `process_file_group` builds: the primary pair followed
by each supplemental file, its destination being the primary destination
with the extension swapped for the captured remainder. -/
def groupMembers (env : Env) (src dst : String) : List (String × String) :=
  (src, dst) ::
    (findSupplementalFiles env src).map
      (fun pe => (pe.1, (splitext dst).1 ++ pe.2))

/-- `FileManager.process_file_group`. -/
def processFileGroup (env : Env) (dryRun : Bool) (fs : List String)
    (src dst : String) : GroupResult :=
  groupGo env dryRun fs [] [] (groupMembers env src dst)

/-- Truthiness of an optional string (`None` and `''` are falsy). -/
def strTruthy : Option String → Bool
  | some s => s ≠ ""
  | none => false

/-- The `path_mappings` loop of `FileManager._calculate_symlink_target`:
first mapping with truthy `script_path` and `plex_path` whose
`script_path` prefixes the source wins; `replace(script, plex, 1)` on a
matching prefix rewrites that prefix. -/
def applyMappings (src : String) : List Mapping → Option String
  | [] => none
  | m :: rest =>
    match m.script, m.plex with
    | some sp, some pp =>
      if sp ≠ "" ∧ pp ≠ "" ∧ sp.data.isPrefixOf src.data then
        some (pp ++ String.mk (src.data.drop sp.data.length))
      else applyMappings src rest
    | _, _ => applyMappings src rest

/-- `FileManager._calculate_symlink_target`: path mappings first, then the
relative-symlink option, then the absolute source path. -/
def calcSymlinkTarget (cfg : Config) (src dst : String) : String :=
  match applyMappings src cfg.pathMappings with
  | some p => p
  | none =>
    if cfg.useRelativeSymlinks then pyRelpath src (pyDirname dst)
    else src

/-! ## The State Store (`database.py`) -/

/-- The `processed_files` table as an insertion-ordered list of
`(shoko_file_id, destination_path)` rows. -/
def getStaleEntries (db : List (Int × String)) (currentIds : List Int) :
    List (Int × String) :=
  db.filter (fun r => ¬ currentIds.contains r.1)

/-- `DatabaseManager.remove_stale_entry`: `DELETE ... WHERE shoko_file_id = ?`. -/
def removeStaleEntry (db : List (Int × String)) (fid : Int) :
    List (Int × String) :=
  db.filter (fun r => r.1 ≠ fid)

/-- `DatabaseManager.add_processed_file`: `INSERT` of a fresh row. -/
def addProcessedFile (db : List (Int × String)) (fid : Int) (dest : String) :
    List (Int × String) :=
  db ++ [(fid, dest)]

/-- `DatabaseManager.get_processed_file_ids`. -/
def processedIds (db : List (Int × String)) : List Int :=
  db.map (fun r => r.1)

/-! ## The add/update run (`ShokoBridge._run_add_new`) -/

/-- An unmatched-report line with a known filename. -/
def mkLine (orig : String) (fid : Int) (msg : String) : String :=
  "File: '" ++ orig ++ "' | ID: " ++ toString fid ++ " | Reason: " ++ msg

/-- The per-file decision pipeline of `_run_add_new` before the
materializer: either a report line (skip), or the `(source, destination)`
pair handed to `process_file_group`.  Exceptions propagate to the per-file
handler. -/
def classifyFile (env : Env) (cfg : Config) (fid : Int) :
    Except PyErr (String ⊕ (String × String)) := do
  match env.fileDetails fid with
  | none =>
    pure (Sum.inl ("File ID: " ++ toString fid ++
      " | Reason: Failed to fetch file details from Shoko."))
  | some fd =>
    match fd.locations with
    | [] => Except.error PyErr.indexError
    | rel :: _ =>
      let orig := pyBasename rel
      match fd.seriesIDs with
      | [] => pure (Sum.inl (mkLine orig fid
          ("File is not linked to any series in Shoko. Skipping.")))
      | se :: _ =>
        match se.episodeIDs with
        | [] => pure (Sum.inl (mkLine orig fid
            ("File is not linked to any episodes in Shoko. Skipping.")))
        | e0 :: _ =>
          match e0.id with
          | none => pure (Sum.inl (mkLine orig fid
              ("Missing Shoko Episode ID in cross-reference. Skipping.")))
          | some sid =>
            if sid = 0 then
              pure (Sum.inl (mkLine orig fid
                ("Missing Shoko Episode ID in cross-reference. Skipping.")))
            else
              match env.episodeDetails sid with
              | none => pure (Sum.inl (mkLine orig fid
                  ("Could not fetch full episode details from Shoko. Skipping.")))
              | some ep => do
                let pr ← determinePath env cfg ep orig fd.seriesIDs
                match pr with
                | none => pure (Sum.inl (mkLine orig fid
                    ("Could not determine destination path or filename. Skipping.")))
                | some (sub, fn) =>
                  if sub = "" ∨ fn = "" then
                    pure (Sum.inl (mkLine orig fid
                      ("Could not determine destination path or filename. Skipping.")))
                  else
                    let dest := pyJoin sub fn
                    let srcRel := pyJoinList (splitCharStr '/' (strReplaceChar rel '\\' '/'))
                    pure (Sum.inr (pyJoin cfg.sourceRoot srcRel, dest))

/-- Whether the per-file pipeline reaches `process_file_group` (used to
state idempotence; depends only on the environment, not on run state). -/
def reachesMaterializer (env : Env) (cfg : Config) (fid : Int) : Bool :=
  match classifyFile env cfg fid with
  | Except.ok (Sum.inr _) => true
  | _ => false

/-- Mutable state of an add/update run: the State Store rows, the
destination filesystem, the unmatched-report lines, and the log of
filesystem mutations performed. -/
structure RunState where
  db : List (Int × String)
  fs : List String
  report : List String
  ops : List FsOp
deriving DecidableEq, Repr

/-- The report line of the per-file `except Exception` handler. -/
def errLine (fid : Int) (e : PyErr) : String :=
  "File ID: " ++ toString fid ++ " | Reason: Unexpected script error - " ++
    (match e with
     | PyErr.keyError => "KeyError"
     | PyErr.typeError => "TypeError"
     | PyErr.indexError => "IndexError")

/-- One iteration of `_run_add_new`'s loop: classify, then either report,
or materialize the group and (on full success, outside dry-run) record the
file in the State Store.  A group failure records nothing and adds no
report line. -/
def fileStep (env : Env) (cfg : Config) (dryRun : Bool) (st : RunState)
    (fid : Int) : RunState :=
  match classifyFile env cfg fid with
  | Except.error e => { st with report := st.report ++ [errLine fid e] }
  | Except.ok (Sum.inl line) => { st with report := st.report ++ [line] }
  | Except.ok (Sum.inr sd) =>
    let r := processFileGroup env dryRun st.fs sd.1 sd.2
    { st with
      fs := r.fs
      ops := st.ops ++ r.ops
      db := if r.ok ∧ ¬ dryRun then addProcessedFile st.db fid sd.2 else st.db }

/-- `_run_add_new`: filter the upstream ID list by the processed set read
once at the start, then run the per-file loop. -/
def runAddNew (env : Env) (cfg : Config) (dryRun : Bool)
    (db0 : List (Int × String)) (fs0 : List String) : RunState :=
  let processed := processedIds db0
  let toProcess := env.allFileIds.filter (fun fid => ¬ processed.contains fid)
  toProcess.foldl (fileStep env cfg dryRun) ⟨db0, fs0, [], []⟩

/-! ## Specification-side definitions used by the claim statements -/

/-- Specification of "every member of the group succeeds, in order"
(non-dry-run): each destination either already exists (skip as success) or
the link operation succeeds and creates it. -/
def membersAllOk (env : Env) : List String → List (String × String) → Bool
  | _, [] => true
  | fs, (src, dst) :: rest =>
    if fs.contains dst then membersAllOk env fs rest
    else if env.linkOk src dst then membersAllOk env (dst :: fs) rest
    else false

/-- Whether one `path_mappings` entry applies to a source path: both fields
present and truthy, and the script prefix matches. -/
def mappingMatches (m : Mapping) (src : String) : Bool :=
  match m.script, m.plex with
  | some sp, some pp => sp ≠ "" ∧ pp ≠ "" ∧ sp.data.isPrefixOf src.data
  | _, _ => false


/-! Sanity lemmas for the fuel-indexed recursion. -/

theorem runLen_le_left : ∀ a b : List Char, runLen a b ≤ a.length := by
  intro a
  induction a with
  | nil => intro b; cases b <;> simp [runLen]
  | cons x xs ih =>
    intro b
    cases b with
    | nil => simp [runLen]
    | cons y ys =>
      simp only [runLen]
      split
      · have := ih ys; simpa using Nat.succ_le_succ this
      · simp

theorem runLen_le_right : ∀ a b : List Char, runLen a b ≤ b.length := by
  intro a
  induction a with
  | nil => intro b; cases b <;> simp [runLen]
  | cons x xs ih =>
    intro b
    cases b with
    | nil => simp [runLen]
    | cons y ys =>
      simp only [runLen]
      split
      · have := ih ys; simpa using Nat.succ_le_succ this
      · simp

/-- A generic invariant lemma for `List.foldl`. -/
theorem foldl_invariant {α β : Type _} (P : β → Prop) (step : β → α → β)
    (l : List α) (init : β) (h0 : P init)
    (hstep : ∀ s a, a ∈ l → P s → P (step s a)) : P (l.foldl step init) := by
  induction l generalizing init with
  | nil => simpa using h0
  | cons x xs ih =>
    simp only [List.foldl_cons]
    exact ih (step init x) (hstep init x (by simp) h0)
      (fun s a ha hs => hstep s a (by simp [ha]) hs)

/-- Bounds invariant of `bestBlock`: a nonzero best block lies inside both
lists. -/
theorem bestBlock_bounds (a b : List Char) :
    (bestBlock a b).2.2 = 0 ∨
      ((bestBlock a b).1 + (bestBlock a b).2.2 ≤ a.length ∧
        (bestBlock a b).2.1 + (bestBlock a b).2.2 ≤ b.length) := by
  unfold bestBlock
  apply foldl_invariant
    (P := fun t : Nat × Nat × Nat =>
      t.2.2 = 0 ∨ (t.1 + t.2.2 ≤ a.length ∧ t.2.1 + t.2.2 ≤ b.length))
  · left; rfl
  · intro s i hi hs
    apply foldl_invariant
      (P := fun t : Nat × Nat × Nat =>
        t.2.2 = 0 ∨ (t.1 + t.2.2 ≤ a.length ∧ t.2.1 + t.2.2 ≤ b.length))
    · exact hs
    · intro t j hj ht
      by_cases hk : t.2.2 < runLen (a.drop i) (b.drop j)
      · simp only [hk, if_pos]
        right
        constructor
        · have h1 : runLen (a.drop i) (b.drop j) ≤ a.length - i := by
            have := runLen_le_left (a.drop i) (b.drop j)
            simpa using this
          have hi' : i < a.length := List.mem_range.mp hi
          omega
        · have h2 : runLen (a.drop i) (b.drop j) ≤ b.length - j := by
            have := runLen_le_right (a.drop i) (b.drop j)
            simpa using this
          have hj' : j < b.length := List.mem_range.mp hj
          omega
      · simpa [hk] using ht

theorem bestBlock_nil (b : List Char) : bestBlock [] b = (0, 0, 0) := rfl

theorem matchingF_nil (f : Nat) (b : List Char) : matchingF f [] b = 0 := by
  cases f with
  | zero => rfl
  | succ f => rfl

/-- The fuel in `matchingF` is irrelevant as soon as it is at least
`a.length`: any two sufficient fuels compute the same value, so
`matchingTotal` is the true fixpoint of the recursion. -/
theorem matchingF_fuel : ∀ fuel fuel' a b, a.length ≤ fuel → a.length ≤ fuel' →
    matchingF fuel a b = matchingF fuel' a b := by
  intro fuel
  induction fuel using Nat.strong_induction_on with
  | _ fuel ih =>
    intro fuel' a b h h'
    cases ha : a with
    | nil => subst ha; rw [matchingF_nil, matchingF_nil]
    | cons x xs =>
      subst ha
      have hlen : 0 < (x :: xs).length := by simp
      obtain ⟨f, rfl⟩ : ∃ f, fuel = f + 1 := ⟨fuel - 1, by omega⟩
      obtain ⟨f', rfl⟩ : ∃ g, fuel' = g + 1 := ⟨fuel' - 1, by omega⟩
      rw [show matchingF (f + 1) (x :: xs) b =
          (let t := bestBlock (x :: xs) b
           if t.2.2 = 0 then 0
           else matchingF f ((x :: xs).take t.1) (b.take t.2.1) + t.2.2 +
             matchingF f ((x :: xs).drop (t.1 + t.2.2)) (b.drop (t.2.1 + t.2.2))) from rfl]
      rw [show matchingF (f' + 1) (x :: xs) b =
          (let t := bestBlock (x :: xs) b
           if t.2.2 = 0 then 0
           else matchingF f' ((x :: xs).take t.1) (b.take t.2.1) + t.2.2 +
             matchingF f' ((x :: xs).drop (t.1 + t.2.2)) (b.drop (t.2.1 + t.2.2))) from rfl]
      simp only
      by_cases hzz : (bestBlock (x :: xs) b).2.2 = 0
      · simp [hzz]
      · rcases bestBlock_bounds (x :: xs) b with hz | ⟨hA, _hB⟩
        · exact absurd hz hzz
        · simp only [hzz, ite_false]
          have hk1 : 1 ≤ (bestBlock (x :: xs) b).2.2 := Nat.one_le_iff_ne_zero.mpr hzz
          have hlt : (x :: xs).length - 1 < f + 1 := by omega
          have htake : ((x :: xs).take (bestBlock (x :: xs) b).1).length ≤
              (x :: xs).length - 1 := by
            simp only [List.length_take]
            omega
          have hdrop : ((x :: xs).drop ((bestBlock (x :: xs) b).1 +
              (bestBlock (x :: xs) b).2.2)).length ≤ (x :: xs).length - 1 := by
            simp only [List.length_drop]
            omega
          have e1 := ih f (by omega) f'
            ((x :: xs).take (bestBlock (x :: xs) b).1)
            (b.take (bestBlock (x :: xs) b).2.1)
            (by omega) (by omega)
          have e2 := ih f (by omega) f'
            ((x :: xs).drop ((bestBlock (x :: xs) b).1 + (bestBlock (x :: xs) b).2.2))
            (b.drop ((bestBlock (x :: xs) b).2.1 + (bestBlock (x :: xs) b).2.2))
            (by omega) (by omega)
          rw [e1, e2]

/-! ## Claim C9: stale-entry reconciliation -/

/-- C9: `get_stale_entries` returns exactly the recorded
`(id, destination path)` pairs whose id is absent from the current IDs, and
`remove_stale_entry id` deletes exactly that id's records; in particular a
store `{101, 102, 103}` reconciled against live IDs `{101, 103, 104}`
yields exactly the entry for 102, and removing it leaves `{101, 103}`. -/
theorem stale_entries_exact :
    (∀ (db : List (Int × String)) (currentIds : List Int) (r : Int × String),
      r ∈ getStaleEntries db currentIds ↔ r ∈ db ∧ r.1 ∉ currentIds) ∧
    (∀ (db : List (Int × String)) (fid : Int) (r : Int × String),
      r ∈ removeStaleEntry db fid ↔ r ∈ db ∧ r.1 ≠ fid) ∧
    getStaleEntries [((101 : Int), "p101"), (102, "p102"), (103, "p103")]
      [101, 103, 104] = [(102, "p102")] ∧
    removeStaleEntry [((101 : Int), "p101"), (102, "p102"), (103, "p103")] 102
      = [(101, "p101"), (103, "p103")] := by
  refine ⟨?_, ?_, ?_, ?_⟩
  · intro db currentIds r
    simp [getStaleEntries, List.mem_filter]
  · intro db fid r
    simp [removeStaleEntry, List.mem_filter]
  · rfl
  · rfl

/-- Witness for C9 at the concrete store of the claim. -/
theorem stale_entries_exact_witness :
    (((102 : Int), "p102") ∈
      getStaleEntries [((101 : Int), "p101"), (102, "p102"), (103, "p103")]
        [101, 103, 104]) ∧
    (((103 : Int), "p103") ∈
      removeStaleEntry [((101 : Int), "p101"), (102, "p102"), (103, "p103")] 102) := by
  constructor
  · exact (stale_entries_exact.1 _ _ _).mpr (by simp)
  · exact (stale_entries_exact.2.1 _ _ _).mpr (by simp)

/-! ## Claim C8: symlink target resolution precedence -/

theorem applyMappings_none (src : String) :
    ∀ ms : List Mapping, (∀ m ∈ ms, mappingMatches m src = false) →
      applyMappings src ms = none := by
  intro ms
  induction ms with
  | nil => intro _; rfl
  | cons m rest ih =>
    intro h
    have hm := h m (by simp)
    have hrest : applyMappings src rest = none :=
      ih (fun m' hm' => h m' (by simp [hm']))
    cases hs : m.script with
    | none => simpa [applyMappings, hs] using hrest
    | some sp =>
      cases hp : m.plex with
      | none => simpa [applyMappings, hs, hp] using hrest
      | some pp =>
        rw [mappingMatches, hs, hp] at hm
        simp only [applyMappings, hs, hp]
        rw [if_neg]
        · exact hrest
        · simpa using hm

theorem applyMappings_first (src : String) (m : Mapping) (sp pp : String)
    (hs : m.script = some sp) (hp : m.plex = some pp)
    (hm : mappingMatches m src = true) :
    ∀ pre rest : List Mapping, (∀ m' ∈ pre, mappingMatches m' src = false) →
      applyMappings src (pre ++ m :: rest) = some (pp ++ String.mk (src.data.drop sp.data.length)) := by
  intro pre
  induction pre with
  | nil =>
    intro rest _
    rw [mappingMatches, hs, hp] at hm
    simp only [List.nil_append, applyMappings, hs, hp]
    rw [if_pos]
    simpa using hm
  | cons m' pre' ih =>
    intro rest h
    have hm' := h m' (by simp)
    have htail := ih rest (fun x hx => h x (by simp [hx]))
    cases hs' : m'.script with
    | none => simpa [applyMappings, hs'] using htail
    | some sp' =>
      cases hp' : m'.plex with
      | none => simpa [applyMappings, hs', hp'] using htail
      | some pp' =>
        rw [mappingMatches, hs', hp'] at hm'
        simp only [List.cons_append, applyMappings, hs', hp']
        rw [if_neg]
        · exact htail
        · simpa using hm'

/-- C8: symlink-target precedence.  (1) the first configured path-mapping
whose truthy source prefix matches rewrites that prefix — regardless of the
relative-symlinks option; (2) otherwise, with relative symlinks enabled,
the target is the relative path from the destination's directory to the
source; (3) otherwise it is the unmodified source path. -/
theorem symlink_target_precedence :
    (∀ (cfg : Config) (src dst : String) (pre rest : List Mapping)
      (m : Mapping) (sp pp : String),
      cfg.pathMappings = pre ++ m :: rest →
      (∀ m' ∈ pre, mappingMatches m' src = false) →
      m.script = some sp → m.plex = some pp → mappingMatches m src = true →
      calcSymlinkTarget cfg src dst = pp ++ String.mk (src.data.drop sp.data.length)) ∧
    (∀ (cfg : Config) (src dst : String),
      (∀ m' ∈ cfg.pathMappings, mappingMatches m' src = false) →
      cfg.useRelativeSymlinks = true →
      calcSymlinkTarget cfg src dst = pyRelpath src (pyDirname dst)) ∧
    (∀ (cfg : Config) (src dst : String),
      (∀ m' ∈ cfg.pathMappings, mappingMatches m' src = false) →
      cfg.useRelativeSymlinks = false →
      calcSymlinkTarget cfg src dst = src) := by
  refine ⟨?_, ?_, ?_⟩
  · intro cfg src dst pre rest m sp pp hmaps hpre hs hp hm
    rw [calcSymlinkTarget, hmaps, applyMappings_first src m sp pp hs hp hm pre rest hpre]
  · intro cfg src dst hnone hrel
    rw [calcSymlinkTarget, applyMappings_none src _ hnone, hrel]
    simp
  · intro cfg src dst hnone hrel
    rw [calcSymlinkTarget, applyMappings_none src _ hnone, hrel]
    simp

/-- Witness for C8: a matching mapping beats an enabled relative-symlink
option, and with no matching mapping the relative path is used. -/
theorem symlink_target_precedence_witness :
    calcSymlinkTarget
      ⟨"/shows", none, "/media", [⟨some ("/media"), some ("/plex/media")⟩], true, 1⟩
      ("/media/show/ep.mkv") ("/shows/show/ep.mkv") = "/plex/media/show/ep.mkv" ∧
    calcSymlinkTarget
      ⟨"/shows", none, "/media", [⟨some ("/other"), some ("/plex/other")⟩], true, 1⟩
      ("/media/show/ep.mkv") ("/shows/show/ep.mkv") =
      pyRelpath ("/media/show/ep.mkv") (pyDirname ("/shows/show/ep.mkv")) := by
  constructor
  · have h := symlink_target_precedence.1
      ⟨"/shows", none, "/media", [⟨some ("/media"), some ("/plex/media")⟩], true, 1⟩
      ("/media/show/ep.mkv") ("/shows/show/ep.mkv") [] []
      ⟨some ("/media"), some ("/plex/media")⟩ ("/media") ("/plex/media")
      rfl (by simp) rfl rfl (by decide)
    simpa using h
  · exact symlink_target_precedence.2.1
      ⟨"/shows", none, "/media", [⟨some ("/other"), some ("/plex/other")⟩], true, 1⟩
      ("/media/show/ep.mkv") ("/shows/show/ep.mkv") (by decide) rfl

/-! ## Claims C6 and C7: extras routing and matched-episode paths -/

theorem pyJoin_plain (a b : String) (ha : a ≠ "") (ha2 : a.data.getLast? ≠ some '/')
    (hb : b.data.head? ≠ some '/') : pyJoin a b = a ++ "/" ++ b := by
  rw [pyJoin, if_neg hb, if_neg]
  rw [not_or]
  exact ⟨ha, ha2⟩

theorem exceptBind_ok {α β : Type _} (a : α) (f : α → Except PyErr β) :
    (Except.ok a >>= f) = f a := rfl

theorem exceptPure {α : Type _} (a : α) : (pure a : Except PyErr α) = Except.ok a := rfl

theorem cleanFilename_head_not_slash (o : Option String) :
    (cleanFilename o).data.head? ≠ some '/' := by
  match o with
  | none => decide
  | some s =>
    by_cases hs : s = ""
    · subst hs; decide
    · rw [cleanFilename, if_neg hs]
      cases hd : s.data with
      | nil =>
        intro h
        replace h : (List.map cleanChar []).head? = some '/' := h
        simp at h
      | cons c cs =>
        intro h
        replace h : (List.map cleanChar (c :: cs)).head? = some '/' := h
        simp only [List.map_cons, List.head?_cons, Option.some.injEq] at h
        rw [cleanChar] at h
        by_cases hb : isBadChar c
        · rw [if_pos hb] at h; exact absurd h (by decide)
        · rw [if_neg hb] at h
          subst h
          exact hb (by decide)

/-- C6: an episode whose type tag is not `'Normal'` and that matched no
reference episode routes under the series folder into `Trailers` for
`'Trailer'`, `Featurettes` for `'Special'`/`'Credits'`/`'Parody'`, and
`Other` for any other tag; the filename is the cleaned source episode
title, or the original filename stem when the title is absent or empty,
with the source extension preserved. -/
theorem extras_routing (env : Env) (cfg : Config) (ep : EpDetails)
    (orig : String) (se : SeriesEntry) (rest : List SeriesEntry)
    (showId : Int) (moreIds : List Int) (series : SeriesData)
    (hmovie : ep.idsTmdbMovie = [])
    (hlink : se.tmdbShow = some (showId :: moreIds))
    (hseries : env.seriesDetails showId = some series)
    (hfound : findTvEpisode env cfg ep showId series = Except.ok none)
    (hnotNormal : ep.anidbType ≠ some "Normal") :
    determinePath env cfg ep orig (se :: rest) = Except.ok (some
      (pyJoin (pyJoin cfg.destShows (folderName series.name series.first_air_date))
        (if ep.anidbType = some "Trailer" then "Trailers"
         else if ep.anidbType = some "Special" ∨ ep.anidbType = some "Credits" ∨
             ep.anidbType = some "Parody" then "Featurettes"
         else "Other"),
       cleanFilename (some (pyOrStr ep.name (splitext orig).1)) ++ (splitext orig).2)) := by
  rw [determinePath, hmovie]
  rw [handleShowPathing]
  simp only [hlink, hseries, hfound, exceptBind_ok, exceptPure]
  have hne : (ep.anidbType == some "Normal") = false := by
    simpa using hnotNormal
  simp only [hne, Bool.false_eq_true, if_false, beq_iff_eq]

/-- Witness for C6: a `'Trailer'` extra with no episode link lands in the
`Trailers` folder with the cleaned title and preserved extension. -/
theorem extras_routing_witness :
    determinePath
      { allFileIds := [], fileDetails := fun _ => none,
        episodeDetails := fun _ => none,
        seriesDetails := fun i => if i = 9 then some ⟨some ("Show"), some ("2020-04-01"), []⟩ else none,
        movieDetails := fun _ => none, seasonDetails := fun _ _ => [],
        sourceExists := fun _ => false, dirListing := fun _ => [],
        linkOk := fun _ _ => true }
      ⟨"/shows", none, "/media", [], false, 1⟩
      ⟨[], [], some ("Trailer"), some ("PV 1"), [], []⟩
      ("trailer.mkv")
      [⟨[], some [9]⟩] =
      Except.ok (some ("/shows/Show (2020)/Trailers", "PV 1.mkv")) := by
  have h := extras_routing
    { allFileIds := [], fileDetails := fun _ => none,
      episodeDetails := fun _ => none,
      seriesDetails := fun i => if i = 9 then some ⟨some ("Show"), some ("2020-04-01"), []⟩ else none,
      movieDetails := fun _ => none, seasonDetails := fun _ _ => [],
      sourceExists := fun _ => false, dirListing := fun _ => [],
      linkOk := fun _ _ => true }
    ⟨"/shows", none, "/media", [], false, 1⟩
    ⟨[], [], some ("Trailer"), some ("PV 1"), [], []⟩
    ("trailer.mkv")
    ⟨[], some [9]⟩ [] 9 [] ⟨some ("Show"), some ("2020-04-01"), []⟩
    rfl rfl (by simp) rfl (by simp)
  rw [h]
  rfl

theorem cleanFilename_ne_nil (o : Option String) : (cleanFilename o).data ≠ [] := by
  match o with
  | none => decide
  | some s =>
    by_cases hs : s = ""
    · subst hs; decide
    · rw [cleanFilename, if_neg hs]
      intro h
      apply hs
      replace h : List.map cleanChar s.data = [] := h
      have hz : s.data = [] := List.map_eq_nil_iff.mp h
      have : s = String.mk [] := String.ext (by simpa using hz)
      simpa using this

theorem folderName_head_not_slash (n d : Option String) :
    (folderName n d).data.head? ≠ some '/' := by
  rw [folderName]
  have h1 := cleanFilename_ne_nil n
  have h2 := cleanFilename_head_not_slash n
  cases hd : (cleanFilename n).data with
  | nil => exact absurd hd h1
  | cons c cs =>
    have hc : c ≠ '/' := by
      rw [hd] at h2
      simpa using h2
    simp only [String.data_append, hd]
    simpa using hc

theorem folderName_last (n d : Option String) :
    (folderName n d).data.getLast? = some ')' := by
  rw [folderName]
  simp only [String.data_append]
  rw [List.append_assoc, List.append_assoc]
  rw [List.getLast?_append_of_ne_nil]
  · rw [List.getLast?_append_of_ne_nil] <;> simp
  · simp

theorem folderName_data_ne_nil (n d : Option String) : (folderName n d).data ≠ [] := by
  intro h
  have hl := congrArg List.length h
  rw [folderName] at hl
  simp only [String.data_append, List.length_append, List.length_cons,
    List.length_nil] at hl
  omega

/-- C7: a matched TV episode's destination is
`<shows-root>/{series} ({year})/Season {ss}/{series} ({year}) - S{ss}E{ee} - {title}{ext}`,
season/episode numbers printed through `zfill(2)`: zero-padded to at least
two digits, wider numbers in full (no cap); in particular series `S`
(first aired 2023) with matched episode S1E7 named `Ep` and a `.mkv`
source yields `<shows-root>/S (2023)/Season 01/S (2023) - S01E07 - Ep.mkv`
(the witness instantiates exactly that input). -/
theorem tv_episode_path (env : Env) (cfg : Config) (ep : EpDetails)
    (orig : String) (se : SeriesEntry) (rest : List SeriesEntry)
    (showId : Int) (moreIds : List Int) (series : SeriesData)
    (epId : Int) (moreEps : List Int) (e0 : EpStub) (moreStubs : List EpStub)
    (sn en : Int) (nm : String)
    (hmovie : ep.idsTmdbMovie = [])
    (hlink : se.tmdbShow = some (showId :: moreIds))
    (hseries : env.seriesDetails showId = some series)
    (heps : ep.idsTmdbEpisode = epId :: moreEps)
    (hstubs : ep.tmdbEpisodes = e0 :: moreStubs)
    (hid : e0.id = some epId)
    (hsn : e0.seasonNumber = some sn)
    (hen : e0.episodeNumber = some en)
    (hnm : e0.title = some nm)
    (hroot : cfg.destShows ≠ "")
    (hroot2 : cfg.destShows.data.getLast? ≠ some '/') :
    (determinePath env cfg ep orig (se :: rest) = Except.ok (some
      (cfg.destShows ++ "/" ++ folderName series.name series.first_air_date ++ "/" ++
         ("Season " ++ zfill2 (toString sn)),
       folderName series.name series.first_air_date ++ " - S" ++ zfill2 (toString sn) ++
         "E" ++ zfill2 (toString en) ++ " - " ++ cleanFilename (some nm) ++
         (splitext orig).2))) ∧
    (∀ s : String, 2 ≤ s.data.length → zfill2 s = s) ∧
    (∀ c : Char, c ≠ '-' → c ≠ '+' → zfill2 (String.mk [c]) = String.mk ['0', c]) := by
  refine ⟨?_, ?_, ?_⟩
  · rw [determinePath, hmovie, handleShowPathing]
    have hfound : findTvEpisode env cfg ep showId series =
        Except.ok (some ⟨some sn, some en, some nm⟩) := by
      rw [findTvEpisode]
      simp [heps, hstubs, hid, hsn, hen, hnm]
      rfl
    simp [hlink, hseries, hfound, exceptBind_ok, exceptPure]
    have hinner : pyJoin cfg.destShows (folderName series.name series.first_air_date) =
        cfg.destShows ++ "/" ++ folderName series.name series.first_air_date :=
      pyJoin_plain _ _ hroot hroot2 (folderName_head_not_slash _ _)
    have hAne : cfg.destShows ++ "/" ++ folderName series.name series.first_air_date ≠ "" := by
      intro h
      have hfnlen : (folderName series.name series.first_air_date).data.length ≠ 0 := by
        intro h0
        exact folderName_data_ne_nil series.name series.first_air_date
          (List.length_eq_zero.mp h0)
      have hl := congrArg (fun s : String => s.data.length) h
      simp only [String.data_append, List.length_append] at hl
      have h0 : ("" : String).data.length = 0 := rfl
      rw [h0] at hl
      omega
    have hAlast : (cfg.destShows ++ "/" ++
        folderName series.name series.first_air_date).data.getLast? ≠ some '/' := by
      rw [String.data_append,
        List.getLast?_append_of_ne_nil _ (folderName_data_ne_nil _ _), folderName_last]
      decide
    have hBhead : ("Season " ++ zfill2 (strOfOptInt (some sn))).data.head? ≠ some '/' := by
      rw [String.data_append]
      intro h
      have : ("Season ").data = 'S' :: "eason ".data := rfl
      rw [this] at h
      simp at h
    have houter := pyJoin_plain
      (cfg.destShows ++ "/" ++ folderName series.name series.first_air_date)
      ("Season " ++ zfill2 (strOfOptInt (some sn))) hAne hAlast hBhead
    rw [hinner, houter]
    exact ⟨rfl, rfl⟩
  · intro s hs
    rw [zfill2, if_pos hs]
  · intro c h1 h2
    have hcond : ¬((String.mk [c]).data.head? = some '-' ∨
        (String.mk [c]).data.head? = some '+') := by
      rw [not_or]
      exact ⟨fun h => h1 (Option.some.inj h), fun h => h2 (Option.some.inj h)⟩
    rw [zfill2, if_neg (by simp), if_neg hcond]
    exact String.ext rfl

/-- Witness for C7: the claim's concrete example, with shows-root
`/shows`. -/
theorem tv_episode_path_witness :
    determinePath
      { allFileIds := [], fileDetails := fun _ => none,
        episodeDetails := fun _ => none,
        seriesDetails := fun i =>
          if i = 5 then some ⟨some ("S"), some ("2023-01-01"), []⟩ else none,
        movieDetails := fun _ => none, seasonDetails := fun _ _ => [],
        sourceExists := fun _ => false, dirListing := fun _ => [],
        linkOk := fun _ _ => true }
      ⟨"/shows", none, "/media", [], false, 1⟩
      ⟨[], [55], some ("Normal"), some ("Ep"), [],
        [⟨some 55, some 1, some 7, some ("Ep")⟩]⟩
      ("file.mkv")
      [⟨[], some [5]⟩] =
      Except.ok (some ("/shows/S (2023)/Season 01",
        "S (2023) - S01E07 - Ep.mkv")) := by
  have h := tv_episode_path
    { allFileIds := [], fileDetails := fun _ => none,
      episodeDetails := fun _ => none,
      seriesDetails := fun i =>
        if i = 5 then some ⟨some ("S"), some ("2023-01-01"), []⟩ else none,
      movieDetails := fun _ => none, seasonDetails := fun _ _ => [],
      sourceExists := fun _ => false, dirListing := fun _ => [],
      linkOk := fun _ _ => true }
    ⟨"/shows", none, "/media", [], false, 1⟩
    ⟨[], [55], some ("Normal"), some ("Ep"), [],
      [⟨some 55, some 1, some 7, some ("Ep")⟩]⟩
    ("file.mkv")
    ⟨[], some [5]⟩ [] 5 [] ⟨some ("S"), some ("2023-01-01"), []⟩
    55 [] ⟨some 55, some 1, some 7, some ("Ep")⟩ [] 1 7 ("Ep")
    rfl rfl (by simp) rfl rfl rfl rfl rfl rfl (by decide) (by decide)
  rw [h.1]
  rfl

/-- A concrete single-file environment whose pathing succeeds (inline
movie data) but whose every link operation fails: `process_file_group`
fails for its only file. -/
def envGroupFail : Env :=
  { allFileIds := [1],
    fileDetails := fun i =>
      if i = 1 then some ⟨["show/ep.mkv"], [⟨[⟨some 7⟩], some [5]⟩]⟩ else none,
    episodeDetails := fun i =>
      if i = 7 then
        some ⟨[3], [], some ("Movie"), some ("M"),
          [⟨some 3, some ("M"), some ("2020-01-01")⟩], []⟩
      else none,
    seriesDetails := fun _ => none,
    movieDetails := fun _ => none,
    seasonDetails := fun _ _ => [],
    sourceExists := fun _ => false,
    dirListing := fun _ => [],
    linkOk := fun _ _ => false }

/-- A minimal configuration shared by concrete run examples. -/
def cfgSimple : Config := ⟨"/shows", none, "/media", [], false, 1⟩

/-- `envGroupFail` with every link operation succeeding: the single file
materializes and is recorded on the first run. -/
def envGroupOk : Env :=
  { allFileIds := [1],
    fileDetails := fun i =>
      if i = 1 then some ⟨["show/ep.mkv"], [⟨[⟨some 7⟩], some [5]⟩]⟩ else none,
    episodeDetails := fun i =>
      if i = 7 then
        some ⟨[3], [], some ("Movie"), some ("M"),
          [⟨some 3, some ("M"), some ("2020-01-01")⟩], []⟩
      else none,
    seriesDetails := fun _ => none,
    movieDetails := fun _ => none,
    seasonDetails := fun _ _ => [],
    sourceExists := fun _ => false,
    dirListing := fun _ => [],
    linkOk := fun _ _ => true }

/-- Stable sort by a total integer key (what `sorted(l, key=f)` computes
when no key access raises). -/
def sortedByKey {α : Type _} (key : α → Int) (l : List α) : List α :=
  (List.insertionSort keyLe (l.map (fun a => (key a, a)))).map (fun p => p.2)

/-- The season iteration order of the title fallback, spec side: seasons
stably sorted by ascending season number, with season 0 removed. -/
def specSeasons (series : SeriesData) : List SeasonStub :=
  (sortedByKey (fun s => s.season_number.getD 0) series.seasons).filter
    (fun s => ¬ (s.season_number == some 0))

/-- One season's candidate episodes in iteration order, spec side. -/
def specEpisodes (env : Env) (showId : Int) (s : SeasonStub) : List TmdbEpisode :=
  sortedByKey (fun e => e.episode_number.getD 0) (env.seasonDetails showId s.season_number)

/-- The full candidate sequence of the title fallback, in iteration
order. -/
def specCands (env : Env) (showId : Int) (series : SeriesData) : List TmdbEpisode :=
  (specSeasons series).bind (specEpisodes env showId)

/-- The pure value `fallbackSeasonStep` computes when the season's episode
data is well-formed. -/
def fallbackSeasonStepPure (env : Env) (showId : Int) (title : String)
    (best : ℚ × Option TmdbEpisode) (season : SeasonStub) :
    ℚ × Option TmdbEpisode :=
  if season.season_number == some 0 then best
  else (specEpisodes env showId season).foldl (bestStep title) best

instance {α : Type _} : IsTotal (Int × α) keyLe :=
  ⟨fun a b => le_total a.1 b.1⟩

instance {α : Type _} : IsTrans (Int × α) keyLe :=
  ⟨fun _ _ _ h1 h2 => le_trans h1 h2⟩

/-- An environment whose series 5 has a malformed season entry (season
object without a `season_number` key). -/
def envMalformedSeason : Env :=
  { allFileIds := [], fileDetails := fun _ => none,
    episodeDetails := fun _ => none,
    seriesDetails := fun i =>
      if i = 5 then some ⟨some ("X"), some ("2021-01-01"), [⟨none⟩]⟩ else none,
    movieDetails := fun _ => none,
    seasonDetails := fun _ _ => [],
    sourceExists := fun _ => false, dirListing := fun _ => [],
    linkOk := fun _ _ => true }

/-- An environment for exercising the title fallback: series 5 has one
season (number 1) with two well-formed episodes named `zzz` and `abc`. -/
def envFallback : Env :=
  { allFileIds := [], fileDetails := fun _ => none,
    episodeDetails := fun _ => none,
    seriesDetails := fun i =>
      if i = 5 then some ⟨some ("X"), some ("2021-01-01"), [⟨some 1⟩]⟩ else none,
    movieDetails := fun _ => none,
    seasonDetails := fun i sn =>
      if i = 5 ∧ sn = some 1 then
        [⟨some 11, some 1, some 1, some ("zzz")⟩,
         ⟨some 12, some 1, some 2, some ("abc")⟩]
      else [],
    sourceExists := fun _ => false, dirListing := fun _ => [],
    linkOk := fun _ _ => true }

/-- `cfgSimple` with a `0.5` title-similarity threshold. -/
def cfgHalf : Config := ⟨"/shows", none, "/media", [], false, mkRat 1 2⟩

/-! ## Claims C1 and C10: the grouped transaction -/

theorem containsIffMem {α : Type _} [BEq α] [LawfulBEq α] (l : List α) (a : α) :
    l.contains a = true ↔ a ∈ l := by
  simpa [List.contains] using List.elem_iff

theorem rollbackFs_subset :
    ∀ (acc fs : List String) (ops : List FsOp) (p : String),
      p ∈ (rollbackFs acc fs ops).1 → p ∈ fs := by
  intro acc
  induction acc with
  | nil => intro fs ops p h; simpa [rollbackFs] using h
  | cons a acc ih =>
    intro fs ops p h
    rw [rollbackFs] at h
    by_cases hc : fs.contains a
    · rw [if_pos hc] at h
      have := ih _ _ _ h
      exact (List.mem_filter.mp this).1
    · rw [if_neg hc] at h
      exact ih _ _ _ h

theorem rollbackFs_not_mem :
    ∀ (acc fs : List String) (ops : List FsOp) (p : String),
      p ∈ acc → p ∉ (rollbackFs acc fs ops).1 := by
  intro acc
  induction acc with
  | nil => intro fs ops p h; simp at h
  | cons a acc ih =>
    intro fs ops p hp
    rw [rollbackFs]
    rcases List.mem_cons.mp hp with rfl | hmem
    · by_cases hc : fs.contains p
      · rw [if_pos hc]
        intro h
        have := rollbackFs_subset _ _ _ _ h
        simp [List.mem_filter] at this
      · rw [if_neg hc]
        intro h
        have := rollbackFs_subset _ _ _ _ h
        exact hc ((containsIffMem _ _).mpr this)
    · by_cases hc : fs.contains a
      · rw [if_pos hc]; exact ih _ _ _ hmem
      · rw [if_neg hc]; exact ih _ _ _ hmem

theorem groupGo_append (env : Env) (dr : Bool) :
    ∀ (xs ys : List (String × String)) (fs acc : List String) (ops : List FsOp),
      groupGo env dr fs acc ops (xs ++ ys) =
        (if (groupGo env dr fs acc ops xs).ok then
          groupGo env dr (groupGo env dr fs acc ops xs).fs
            (groupGo env dr fs acc ops xs).linked
            (groupGo env dr fs acc ops xs).ops ys
        else groupGo env dr fs acc ops xs) := by
  intro xs
  induction xs with
  | nil =>
    intro ys fs acc ops
    simp [groupGo]
  | cons hd tl ih =>
    intro ys fs acc ops
    obtain ⟨src, dst⟩ := hd
    by_cases h1 : (linkSingle env dr fs src dst).1
    · rw [List.cons_append, groupGo, if_pos h1, ih, groupGo, if_pos h1]
    · rw [List.cons_append, groupGo, if_neg h1, groupGo, if_neg h1]
      by_cases hdr : dr
      · simp [hdr]
      · simp [hdr]

theorem groupGo_ok_eq (env : Env) :
    ∀ (members : List (String × String)) (fs acc : List String) (ops : List FsOp),
      (groupGo env false fs acc ops members).ok = membersAllOk env fs members := by
  intro members
  induction members with
  | nil => intro fs acc ops; rfl
  | cons hd tl ih =>
    intro fs acc ops
    obtain ⟨src, dst⟩ := hd
    rw [groupGo, membersAllOk]
    by_cases hc : fs.contains dst
    · have hm : dst ∈ fs := (containsIffMem _ _).mp hc
      have hls : linkSingle env false fs src dst = (true, fs, []) := by
        simp [linkSingle, hm]
      rw [hls, if_pos hc]
      simp only [show ((true, fs, ([] : List FsOp)).1 = true) from rfl, if_true]
      exact ih _ _ _
    · have hm : dst ∉ fs := fun h => hc ((containsIffMem _ _).mpr h)
      by_cases hl : env.linkOk src dst
      · have hls : linkSingle env false fs src dst = (true, dst :: fs, [FsOp.create dst]) := by
          simp [linkSingle, hm, hl]
        rw [hls, if_neg hc, if_pos hl]
        simp only [show ((true, dst :: fs, [FsOp.create dst]).1 = true) from rfl, if_true]
        exact ih _ _ _
      · have hls : linkSingle env false fs src dst = (false, fs, []) := by
          simp [linkSingle, hm, hl]
        rw [hls, if_neg hc, if_neg hl]
        simp

theorem groupGo_fail_state (env : Env) :
    ∀ (members : List (String × String)) (fs acc : List String) (ops : List FsOp)
      (p : String),
      (groupGo env false fs acc ops members).ok = false →
      p ∈ (groupGo env false fs acc ops members).fs → p ∈ fs ∧ p ∉ acc := by
  intro members
  induction members with
  | nil => intro fs acc ops p h; simp [groupGo] at h
  | cons hd tl ih =>
    intro fs acc ops p hok hmem
    obtain ⟨src, dst⟩ := hd
    rw [groupGo] at hok hmem
    by_cases hc : fs.contains dst
    · have hm : dst ∈ fs := (containsIffMem _ _).mp hc
      have hls : linkSingle env false fs src dst = (true, fs, []) := by
        simp [linkSingle, hm]
      rw [hls] at hok hmem
      simp only [show (true, fs, ([] : List FsOp)).1 = true from rfl, if_true] at hok hmem
      have := ih _ _ _ _ hok hmem
      refine ⟨this.1, fun hp => this.2 ?_⟩
      simp [hp]
    · have hm : dst ∉ fs := fun h => hc ((containsIffMem _ _).mpr h)
      by_cases hl : env.linkOk src dst
      · have hls : linkSingle env false fs src dst = (true, dst :: fs, [FsOp.create dst]) := by
          simp [linkSingle, hm, hl]
        rw [hls] at hok hmem
        simp only [show (true, dst :: fs, [FsOp.create dst]).1 = true from rfl,
          if_true] at hok hmem
        have := ih _ _ _ _ hok hmem
        have hpd : p ≠ dst := by
          intro hp
          exact this.2 (by simp [hp])
        refine ⟨?_, fun hp => this.2 (by simp [hp])⟩
        rcases List.mem_cons.mp this.1 with h | h
        · exact absurd h hpd
        · exact h
      · have hls : linkSingle env false fs src dst = (false, fs, []) := by
          simp [linkSingle, hm, hl]
        rw [hls] at hok hmem
        simp only [show (false, fs, ([] : List FsOp)).1 = true ↔ False by simp,
          if_false, Bool.false_eq_true] at hok hmem
        refine ⟨rollbackFs_subset acc fs (ops ++ []) p ?_,
          fun hp => rollbackFs_not_mem acc fs (ops ++ []) p hp ?_⟩
        · exact hmem
        · exact hmem

theorem groupGo_ok_mono (env : Env) (dr : Bool) :
    ∀ (members : List (String × String)) (fs acc : List String) (ops : List FsOp),
      (groupGo env dr fs acc ops members).ok = true →
      (∀ p, p ∈ fs → p ∈ (groupGo env dr fs acc ops members).fs) ∧
      (∀ p, p ∈ acc → p ∈ (groupGo env dr fs acc ops members).linked) := by
  intro members
  induction members with
  | nil => intro fs acc ops _; exact ⟨fun p hp => hp, fun p hp => hp⟩
  | cons hd tl ih =>
    intro fs acc ops hok
    obtain ⟨src, dst⟩ := hd
    rw [groupGo] at hok ⊢
    by_cases h1 : (linkSingle env dr fs src dst).1
    · rw [if_pos h1] at hok ⊢
      have h2 := ih (linkSingle env dr fs src dst).2.1
        (if dr then acc else acc ++ [dst])
        (ops ++ (linkSingle env dr fs src dst).2.2) hok
      constructor
      · intro p hp
        apply h2.1
        rw [linkSingle]
        by_cases hc : dst ∈ fs
        · simpa [hc] using hp
        · by_cases hdr : dr
          · simpa [hc, hdr] using hp
          · by_cases hl : env.linkOk src dst
            · simp [hc, hdr, hl]
              right
              exact hp
            · simpa [hc, hdr, hl] using hp
      · intro p hp
        apply h2.2
        by_cases hdr : dr
        · simpa [hdr] using hp
        · simp [hdr, hp]
    · rw [if_neg h1] at hok
      by_cases hdr : dr
      · simp [hdr] at hok
      · simp [hdr] at hok

theorem groupGo_skip (env : Env) (fs acc : List String) (ops : List FsOp)
    (s d : String) (h : fs.contains d = true) :
    groupGo env false fs acc ops [(s, d)] = ⟨true, fs, ops, acc ++ [d]⟩ := by
  have hls : linkSingle env false fs s d = (true, fs, []) := by
    simp [linkSingle, (containsIffMem _ _).mp h]
  rw [groupGo, hls]
  simp [groupGo]

theorem groupGo_stop (env : Env) :
    ∀ (pre rest : List (String × String)) (s d : String)
      (fs fs1 acc1 : List String) (ops1 : List FsOp),
      groupGo env false fs [] [] pre = ⟨true, fs1, ops1, acc1⟩ →
      fs1.contains d = false → env.linkOk s d = false →
      groupGo env false fs [] [] (pre ++ (s, d) :: rest) =
        ⟨false, (rollbackFs acc1 fs1 ops1).1, (rollbackFs acc1 fs1 ops1).2, acc1⟩ := by
  intro pre rest s d fs fs1 acc1 ops1 hpre hc hl
  rw [groupGo_append, hpre]
  simp only [if_true]
  have hm : d ∉ fs1 := fun h => by rw [(containsIffMem fs1 d).mpr h] at hc; cases hc
  have hls : linkSingle env false fs1 s d = (false, fs1, []) := by
    simp [linkSingle, hm, hl]
  rw [groupGo, hls]
  simp

/-- C1: `process_file_group` in non-dry-run mode is a transaction.
(1) The group reports success iff every member, processed in order,
succeeded; (2) if any member failed, no destination created during the
group's processing remains afterwards (the result filesystem is contained
in the initial one); (3) processing stops at the first failing member —
the result does not depend on the remaining members — and rolls back
exactly the accumulated destination list; (4) a failed group inserts no
State Store record for the file. -/
theorem group_transactional (env : Env) :
    (∀ (fs : List String) (src dst : String),
      (processFileGroup env false fs src dst).ok = true ↔
        membersAllOk env fs (groupMembers env src dst) = true) ∧
    (∀ (fs : List String) (src dst : String) (p : String),
      (processFileGroup env false fs src dst).ok = false →
      p ∈ (processFileGroup env false fs src dst).fs → p ∈ fs) ∧
    (∀ (pre rest : List (String × String)) (s d : String)
      (fs fs1 acc1 : List String) (ops1 : List FsOp),
      groupGo env false fs [] [] pre = ⟨true, fs1, ops1, acc1⟩ →
      fs1.contains d = false → env.linkOk s d = false →
      groupGo env false fs [] [] (pre ++ (s, d) :: rest) =
        ⟨false, (rollbackFs acc1 fs1 ops1).1, (rollbackFs acc1 fs1 ops1).2, acc1⟩) ∧
    (∀ (cfg : Config) (st : RunState) (fid : Int) (sd : String × String),
      classifyFile env cfg fid = Except.ok (Sum.inr sd) →
      (processFileGroup env false st.fs sd.1 sd.2).ok = false →
      (fileStep env cfg false st fid).db = st.db) := by
  refine ⟨?_, ?_, ?_, ?_⟩
  · intro fs src dst
    rw [processFileGroup, groupGo_ok_eq]
  · intro fs src dst p hok hmem
    exact (groupGo_fail_state env _ _ _ _ _ hok hmem).1
  · exact groupGo_stop env
  · intro cfg st fid sd hclass hfail
    rw [fileStep, hclass]
    simp [hfail]

/-- Witness for C1: a two-member group (media file plus discovered `.srt`
sidecar) whose second link fails: the run stops, rolls back the created
primary destination, reports failure, and the success check agrees with
the member-by-member specification. -/
theorem group_transactional_witness :
    groupGo
      { allFileIds := [], fileDetails := fun _ => none,
        episodeDetails := fun _ => none, seriesDetails := fun _ => none,
        movieDetails := fun _ => none, seasonDetails := fun _ _ => [],
        sourceExists := fun _ => true,
        dirListing := fun p => if p = "/m" then ["a.mkv", "a.srt"] else [],
        linkOk := fun _ d => d = "/d/a.mkv" }
      false [] [] []
      ([("/m/a.mkv", "/d/a.mkv")] ++ [("/m/a.srt", "/d/a.srt")]) =
      ⟨false,
        (rollbackFs ["/d/a.mkv"] ["/d/a.mkv"] [FsOp.create ("/d/a.mkv")]).1,
        (rollbackFs ["/d/a.mkv"] ["/d/a.mkv"] [FsOp.create ("/d/a.mkv")]).2,
        ["/d/a.mkv"]⟩ ∧
    ((processFileGroup
      { allFileIds := [], fileDetails := fun _ => none,
        episodeDetails := fun _ => none, seriesDetails := fun _ => none,
        movieDetails := fun _ => none, seasonDetails := fun _ _ => [],
        sourceExists := fun _ => true,
        dirListing := fun p => if p = "/m" then ["a.mkv", "a.srt"] else [],
        linkOk := fun _ d => d = "/d/a.mkv" }
      false [] ("/m/a.mkv") ("/d/a.mkv")).ok = true ↔
      membersAllOk
        { allFileIds := [], fileDetails := fun _ => none,
          episodeDetails := fun _ => none, seriesDetails := fun _ => none,
          movieDetails := fun _ => none, seasonDetails := fun _ _ => [],
          sourceExists := fun _ => true,
          dirListing := fun p => if p = "/m" then ["a.mkv", "a.srt"] else [],
          linkOk := fun _ d => d = "/d/a.mkv" }
        [] (groupMembers
          { allFileIds := [], fileDetails := fun _ => none,
            episodeDetails := fun _ => none, seriesDetails := fun _ => none,
            movieDetails := fun _ => none, seasonDetails := fun _ _ => [],
            sourceExists := fun _ => true,
            dirListing := fun p => if p = "/m" then ["a.mkv", "a.srt"] else [],
            linkOk := fun _ d => d = "/d/a.mkv" }
          ("/m/a.mkv") ("/d/a.mkv")) = true) := by
  constructor
  · exact (group_transactional _).2.2.1
      [("/m/a.mkv", "/d/a.mkv")] [] ("/m/a.srt") ("/d/a.srt")
      [] ["/d/a.mkv"] ["/d/a.mkv"] [FsOp.create ("/d/a.mkv")]
      (by decide) (by decide) (by decide)
  · exact (group_transactional _).1 [] ("/m/a.mkv") ("/d/a.mkv")

/-- C10: a group member whose destination already exists is skipped as a
success but its path still enters the rollback accumulator; if a later
member of the same group fails, the rollback deletes that pre-existing
destination file. -/
theorem preexisting_dest_rolled_back (env : Env) :
    (∀ (fs fs1 acc1 : List String) (ops1 : List FsOp)
      (pre : List (String × String)) (s d : String),
      groupGo env false fs [] [] pre = ⟨true, fs1, ops1, acc1⟩ →
      fs1.contains d = true →
      groupGo env false fs [] [] (pre ++ [(s, d)]) = ⟨true, fs1, ops1, acc1 ++ [d]⟩) ∧
    (∀ (fs fs1 acc1 fs2 acc2 : List String) (ops1 ops2 : List FsOp)
      (pre mid rest : List (String × String)) (s d s2 d2 : String),
      groupGo env false fs [] [] pre = ⟨true, fs1, ops1, acc1⟩ →
      fs1.contains d = true →
      groupGo env false fs [] [] (pre ++ (s, d) :: mid) = ⟨true, fs2, ops2, acc2⟩ →
      fs2.contains d2 = false → env.linkOk s2 d2 = false →
      d ∉ (groupGo env false fs [] []
        ((pre ++ (s, d) :: mid) ++ (s2, d2) :: rest)).fs) := by
  have hskip : ∀ (fs fs1 acc1 : List String) (ops1 : List FsOp)
      (pre : List (String × String)) (s d : String),
      groupGo env false fs [] [] pre = ⟨true, fs1, ops1, acc1⟩ →
      fs1.contains d = true →
      groupGo env false fs [] [] (pre ++ [(s, d)]) = ⟨true, fs1, ops1, acc1 ++ [d]⟩ := by
    intro fs fs1 acc1 ops1 pre s d hpre hc
    rw [groupGo_append, hpre]
    simp only [if_true]
    exact groupGo_skip env fs1 acc1 ops1 s d hc
  refine ⟨hskip, ?_⟩
  intro fs fs1 acc1 fs2 acc2 ops1 ops2 pre mid rest s d s2 d2 hpre hc hmid hc2 hl2
  have hstop := groupGo_stop env (pre ++ (s, d) :: mid) rest s2 d2 fs fs2 acc2 ops2
    hmid hc2 hl2
  rw [hstop]
  have hdmem : d ∈ acc2 := by
    have hsplit : pre ++ (s, d) :: mid = (pre ++ [(s, d)]) ++ mid := by simp
    rw [hsplit, groupGo_append, hskip fs fs1 acc1 ops1 pre s d hpre hc] at hmid
    simp only [if_true] at hmid
    have hok2 : (groupGo env false fs1 (acc1 ++ [d]) ops1 mid).ok = true := by
      rw [hmid]
    have := (groupGo_ok_mono env false mid fs1 (acc1 ++ [d]) ops1 hok2).2 d (by simp)
    rw [hmid] at this
    exact this
  exact rollbackFs_not_mem _ _ _ _ hdmem

/-- Witness for C10: the destination of the first member already exists;
the second member fails; the pre-existing file is gone afterwards. -/
theorem preexisting_dest_rolled_back_witness :
    groupGo
      { allFileIds := [], fileDetails := fun _ => none,
        episodeDetails := fun _ => none, seriesDetails := fun _ => none,
        movieDetails := fun _ => none, seasonDetails := fun _ _ => [],
        sourceExists := fun _ => true, dirListing := fun _ => [],
        linkOk := fun _ _ => false }
      false ["/d/a.mkv"] [] [] ([] ++ [("/m/a.mkv", "/d/a.mkv")]) =
      ⟨true, ["/d/a.mkv"], [], [] ++ ["/d/a.mkv"]⟩ ∧
    "/d/a.mkv" ∉ (groupGo
      { allFileIds := [], fileDetails := fun _ => none,
        episodeDetails := fun _ => none, seriesDetails := fun _ => none,
        movieDetails := fun _ => none, seasonDetails := fun _ _ => [],
        sourceExists := fun _ => true, dirListing := fun _ => [],
        linkOk := fun _ _ => false }
      false ["/d/a.mkv"] [] []
      (([] ++ [("/m/a.mkv", "/d/a.mkv")]) ++ [("/m/a.srt", "/d/a.srt")])).fs := by
  constructor
  · exact (preexisting_dest_rolled_back _).1 ["/d/a.mkv"] ["/d/a.mkv"] [] []
      [] ("/m/a.mkv") ("/d/a.mkv") rfl (by decide)
  · exact (preexisting_dest_rolled_back _).2 ["/d/a.mkv"] ["/d/a.mkv"] []
      ["/d/a.mkv"] ["/d/a.mkv"] [] [] [] [] [] ("/m/a.mkv") ("/d/a.mkv")
      ("/m/a.srt") ("/d/a.srt") rfl (by decide)
      (by decide) (by decide) (by decide)

/-! ## Claim C2: reporting of materialization failures -/

/-- Counterexample to C2: a run in which the only file resolves, reaches
the materializer, and fails to materialize — yet the unmatched report ends
the run empty (and nothing is recorded).  `_run_add_new` has no report
branch for `process_file_group` returning `False`. -/
theorem materialization_failure_unreported :
    runAddNew envGroupFail cfgSimple false [] [] = ⟨[], [], [], []⟩ ∧
    reachesMaterializer envGroupFail cfgSimple 1 = true := by
  constructor
  · rfl
  · rfl

/-- C2 amended: a file whose group materialization fails adds no line to
the unmatched report; it is merely left unrecorded (its State Store row is
not inserted), so a later run will retry it.  Report lines arise only from
fetch failures, missing links, path-determination failures and unexpected
errors. -/
theorem materialization_failure_silent (env : Env) (cfg : Config)
    (st : RunState) (fid : Int) (sd : String × String)
    (hclass : classifyFile env cfg fid = Except.ok (Sum.inr sd))
    (hfail : (processFileGroup env false st.fs sd.1 sd.2).ok = false) :
    (fileStep env cfg false st fid).report = st.report ∧
    (fileStep env cfg false st fid).db = st.db := by
  rw [fileStep, hclass]
  simp [hfail]

/-- Witness for the amended C2 at the concrete failing-group run. -/
theorem materialization_failure_silent_witness :
    (fileStep envGroupFail cfgSimple false ⟨[], [], [], []⟩ 1).report = [] ∧
    (fileStep envGroupFail cfgSimple false ⟨[], [], [], []⟩ 1).db = [] :=
  materialization_failure_silent envGroupFail cfgSimple ⟨[], [], [], []⟩ 1
    ("/media/show/ep.mkv", "/shows/M (2020)/M (2020).mkv") rfl rfl

/-! ## Claim C4: idempotence of a second run -/

theorem fileStep_no_materialize (env : Env) (cfg : Config) (dr : Bool)
    (st : RunState) (fid : Int)
    (h : reachesMaterializer env cfg fid = false) :
    (fileStep env cfg dr st fid).db = st.db ∧
    (fileStep env cfg dr st fid).fs = st.fs ∧
    (fileStep env cfg dr st fid).ops = st.ops := by
  rw [fileStep]
  rw [reachesMaterializer] at h
  cases hcl : classifyFile env cfg fid with
  | error e => simp
  | ok v =>
    cases v with
    | inl line => simp
    | inr sd => rw [hcl] at h; simp at h

theorem foldl_fileStep_frozen (env : Env) (cfg : Config) (dr : Bool) :
    ∀ (l : List Int) (st : RunState),
      (∀ fid ∈ l, reachesMaterializer env cfg fid = false) →
      (l.foldl (fileStep env cfg dr) st).db = st.db ∧
      (l.foldl (fileStep env cfg dr) st).fs = st.fs ∧
      (l.foldl (fileStep env cfg dr) st).ops = st.ops := by
  intro l
  induction l with
  | nil => intro st _; exact ⟨rfl, rfl, rfl⟩
  | cons fid tl ih =>
    intro st h
    have h1 := fileStep_no_materialize env cfg dr st fid (h fid (by simp))
    have h2 := ih (fileStep env cfg dr st fid) (fun x hx => h x (by simp [hx]))
    rw [List.foldl_cons]
    exact ⟨h2.1.trans h1.1, h2.2.1.trans h1.2.1, h2.2.2.trans h1.2.2⟩

theorem run_frozen (env : Env) (cfg : Config) (db : List (Int × String))
    (fs : List String)
    (h : ∀ fid ∈ env.allFileIds, reachesMaterializer env cfg fid = true →
      fid ∈ processedIds db) :
    (runAddNew env cfg false db fs).ops = [] ∧
    (runAddNew env cfg false db fs).db = db ∧
    (runAddNew env cfg false db fs).fs = fs := by
  rw [runAddNew]
  have := foldl_fileStep_frozen env cfg false
    ((env.allFileIds).filter (fun fid => ¬ (processedIds db).contains fid))
    ⟨db, fs, [], []⟩ ?_
  · exact ⟨this.2.2, this.1, this.2.1⟩
  · intro fid hf
    have hmem := List.mem_filter.mp hf
    by_contra hre
    have hre' : reachesMaterializer env cfg fid = true := by
      cases hx : reachesMaterializer env cfg fid
      · exact absurd hx hre
      · rfl
    have := h fid hmem.1 hre'
    have hcontains : (processedIds db).contains fid = true :=
      (containsIffMem _ _).mpr this
    rw [hcontains] at hmem
    simp at hmem

/-- C4: with the same upstream ID set and unchanged oracles, if the first
add/update run recorded every file for which it invoked the materializer,
then a second run performs zero filesystem operations and inserts zero
State Store records: every recorded ID is excluded by the processed-set
filter, and the remaining IDs fail before any filesystem access. -/
theorem idempotent_second_run (env : Env) (cfg : Config)
    (db0 : List (Int × String)) (fs0 : List String)
    (hrec : ∀ fid ∈ env.allFileIds, reachesMaterializer env cfg fid = true →
      fid ∈ processedIds (runAddNew env cfg false db0 fs0).db) :
    (runAddNew env cfg false (runAddNew env cfg false db0 fs0).db
        (runAddNew env cfg false db0 fs0).fs).ops = [] ∧
    (runAddNew env cfg false (runAddNew env cfg false db0 fs0).db
        (runAddNew env cfg false db0 fs0).fs).db =
      (runAddNew env cfg false db0 fs0).db ∧
    (runAddNew env cfg false (runAddNew env cfg false db0 fs0).db
        (runAddNew env cfg false db0 fs0).fs).fs =
      (runAddNew env cfg false db0 fs0).fs :=
  run_frozen env cfg (runAddNew env cfg false db0 fs0).db
    (runAddNew env cfg false db0 fs0).fs hrec

/-- Witness for C4: one file, fully materialized and recorded on the first
run; the second run is a no-op on filesystem and store. -/
theorem idempotent_second_run_witness :
    (runAddNew envGroupOk cfgSimple false
        (runAddNew envGroupOk cfgSimple false [] []).db
        (runAddNew envGroupOk cfgSimple false [] []).fs).ops = [] ∧
    (runAddNew envGroupOk cfgSimple false
        (runAddNew envGroupOk cfgSimple false [] []).db
        (runAddNew envGroupOk cfgSimple false [] []).fs).db =
      (runAddNew envGroupOk cfgSimple false [] []).db ∧
    (runAddNew envGroupOk cfgSimple false
        (runAddNew envGroupOk cfgSimple false [] []).db
        (runAddNew envGroupOk cfgSimple false [] []).fs).fs =
      (runAddNew envGroupOk cfgSimple false [] []).fs :=
  idempotent_second_run envGroupOk cfgSimple [] [] (by decide)

/-! ## Claims C3 and C5: the title fallback and the engine's failure
policy -/

theorem keyed_ok {α : Type _} (f : α → Except PyErr Int) (key : α → Int) :
    ∀ l : List α, (∀ a ∈ l, f a = Except.ok (key a)) →
      keyed f l = Except.ok (l.map (fun a => (key a, a))) := by
  intro l
  induction l with
  | nil => intro _; rfl
  | cons a l ih =>
    intro h
    rw [keyed, h a (by simp), ih (fun x hx => h x (by simp [hx]))]
    rfl

theorem sortByKeyE_ok {α : Type _} (f : α → Except PyErr Int) (key : α → Int)
    (l : List α) (h : ∀ a ∈ l, f a = Except.ok (key a)) :
    sortByKeyE f l = Except.ok (sortedByKey key l) := by
  rw [sortByKeyE, keyed_ok f key l h]
  rfl

theorem mem_sortedByKey {α : Type _} (key : α → Int) (l : List α) (a : α) :
    a ∈ sortedByKey key l ↔ a ∈ l := by
  rw [sortedByKey]
  constructor
  · intro h
    obtain ⟨p, hp, rfl⟩ := List.mem_map.mp h
    have := (List.mem_insertionSort keyLe).mp hp
    obtain ⟨b, hb, rfl⟩ := List.mem_map.mp this
    exact hb
  · intro h
    apply List.mem_map.mpr
    refine ⟨(key a, a), ?_, rfl⟩
    apply (List.mem_insertionSort keyLe).mpr
    exact List.mem_map.mpr ⟨a, h, rfl⟩

theorem sortedByKey_pairwise {α : Type _} (key : α → Int) (l : List α) :
    List.Pairwise (fun a b => key a ≤ key b) (sortedByKey key l) := by
  rw [sortedByKey]
  have hs := List.sorted_insertionSort keyLe (l.map (fun a => (key a, a)))
  have hinv : ∀ p ∈ List.insertionSort keyLe (l.map (fun a => (key a, a))),
      p.1 = key p.2 := by
    intro p hp
    have := (List.mem_insertionSort keyLe).mp hp
    obtain ⟨b, _, rfl⟩ := List.mem_map.mp this
    rfl
  rw [List.pairwise_map]
  refine List.Pairwise.imp_of_mem ?_ hs
  intro p q hp hq hle
  have e1 := hinv p hp
  have e2 := hinv q hq
  rw [keyLe, e1, e2] at hle
  exact hle

theorem foldlM_ok {α β : Type _} (body : β → α → Except PyErr β) (g : β → α → β) :
    ∀ l : List α, (∀ b a, a ∈ l → body b a = Except.ok (g b a)) →
      ∀ init : β, l.foldlM body init = Except.ok (l.foldl g init) := by
  intro l
  induction l with
  | nil => intro _ init; rfl
  | cons a l ih =>
    intro h init
    rw [List.foldlM_cons, h init a (by simp)]
    show l.foldlM body (g init a) = Except.ok ((a :: l).foldl g init)
    rw [List.foldl_cons]
    exact ih (fun b x hx => h b x (by simp [hx])) (g init a)

theorem foldl_skip {α β : Type _} (p : α → Bool) (g : β → α → β) :
    ∀ (l : List α) (init : β),
      l.foldl (fun b a => if p a then b else g b a) init =
        (l.filter (fun a => ¬ p a)).foldl g init := by
  intro l
  induction l with
  | nil => intro init; rfl
  | cons a l ih =>
    intro init
    rw [List.foldl_cons, List.filter_cons]
    by_cases hp : p a
    · simp [hp, ih init]
    · simp [hp, ih (g init a)]

theorem foldl_bind' {α β γ : Type _} (f : α → List γ) (step : β → γ → β) :
    ∀ (l : List α) (init : β),
      (l.bind f).foldl step init = l.foldl (fun b a => (f a).foldl step b) init := by
  intro l
  induction l with
  | nil => intro init; rfl
  | cons a l ih =>
    intro init
    have h1 : (a :: l).bind f = f a ++ l.bind f := rfl
    rw [h1, List.foldl_append, List.foldl_cons]
    exact ih ((f a).foldl step init)

/-- The strict-`>` best-tracking fold computes the first-seen maximum:
either no candidate beats the initial score (the accumulator survives and
every score is at most it), or the result is the first candidate of
maximal score above the initial one. -/
theorem foldl_bestStep (t : String) :
    ∀ (l : List TmdbEpisode) (acc : ℚ × Option TmdbEpisode),
      (l.foldl (bestStep t) acc = acc ∧
        ∀ j, ∀ hj : j < l.length, scoreOf t (l.get ⟨j, hj⟩) ≤ acc.1) ∨
      (∃ i, ∃ hi : i < l.length,
        l.foldl (bestStep t) acc =
          (scoreOf t (l.get ⟨i, hi⟩), some (l.get ⟨i, hi⟩)) ∧
        acc.1 < scoreOf t (l.get ⟨i, hi⟩) ∧
        (∀ j, ∀ hj : j < l.length,
          scoreOf t (l.get ⟨j, hj⟩) ≤ scoreOf t (l.get ⟨i, hi⟩)) ∧
        (∀ j, ∀ hj : j < l.length, j < i →
          scoreOf t (l.get ⟨j, hj⟩) < scoreOf t (l.get ⟨i, hi⟩))) := by
  intro l
  induction l with
  | nil =>
    intro acc
    left
    exact ⟨rfl, fun j hj => absurd hj (by simp)⟩
  | cons x xs ih =>
    intro acc
    rw [List.foldl_cons]
    by_cases hx : acc.1 < scoreOf t x
    · have hstep : bestStep t acc x = (scoreOf t x, some x) := by
        rw [bestStep, if_pos hx]
      rw [hstep]
      rcases ih (scoreOf t x, some x) with ⟨heq, hall⟩ | ⟨i, hi, heq, hgt, hmax, hfirst⟩
      · right
        refine ⟨0, by simp, heq, hx, ?_, ?_⟩
        · intro j hj
          cases j with
          | zero => exact le_refl _
          | succ n =>
            exact hall n (by simpa using Nat.lt_of_succ_lt_succ hj)
        · intro j hj hj0
          exact absurd hj0 (Nat.not_lt_zero j)
      · right
        refine ⟨i + 1, by simpa using Nat.succ_lt_succ hi, heq,
          lt_trans hx hgt, ?_, ?_⟩
        · intro j hj
          cases j with
          | zero => exact le_of_lt hgt
          | succ n =>
            exact hmax n (by simpa using Nat.lt_of_succ_lt_succ hj)
        · intro j hj hlt
          cases j with
          | zero => exact hgt
          | succ n =>
            exact hfirst n (by simpa using Nat.lt_of_succ_lt_succ hj)
              (Nat.lt_of_succ_lt_succ hlt)
    · have hstep : bestStep t acc x = acc := by
        rw [bestStep, if_neg hx]
      rw [hstep]
      rcases ih acc with ⟨heq, hall⟩ | ⟨i, hi, heq, hgt, hmax, hfirst⟩
      · left
        refine ⟨heq, ?_⟩
        intro j hj
        cases j with
        | zero => exact not_lt.mp hx
        | succ n =>
          exact hall n (by simpa using Nat.lt_of_succ_lt_succ hj)
      · right
        refine ⟨i + 1, by simpa using Nat.succ_lt_succ hi, heq, hgt, ?_, ?_⟩
        · intro j hj
          cases j with
          | zero => exact le_of_lt (lt_of_le_of_lt (not_lt.mp hx) hgt)
          | succ n =>
            exact hmax n (by simpa using Nat.lt_of_succ_lt_succ hj)
        · intro j hj hlt
          cases j with
          | zero => exact lt_of_le_of_lt (not_lt.mp hx) hgt
          | succ n =>
            exact hfirst n (by simpa using Nat.lt_of_succ_lt_succ hj)
              (Nat.lt_of_succ_lt_succ hlt)

/-- Evaluation of the title fallback on well-formed data: it equals the
threshold test applied to the strict-`>` best fold over the ordered
candidate sequence. -/
theorem findFallback_eval (env : Env) (cfg : Config) (showId : Int)
    (series : SeriesData) (t : String)
    (hθ : 0 < cfg.titleSimilarityThreshold)
    (hs : ∀ s ∈ series.seasons, s.season_number ≠ none)
    (he : ∀ s ∈ series.seasons, ∀ e ∈ env.seasonDetails showId s.season_number,
      e.episode_number ≠ none ∧ e.season_number ≠ none) :
    findFallback env cfg showId series t =
      Except.ok
        (if cfg.titleSimilarityThreshold ≤
            ((specCands env showId series).foldl (bestStep t) (0, none)).1
         then ((specCands env showId series).foldl (bestStep t) (0, none)).2
         else none) := by
  have h1 : sortByKeyE (fun s => getKey s.season_number) series.seasons =
      Except.ok (sortedByKey (fun s => s.season_number.getD 0) series.seasons) := by
    apply sortByKeyE_ok
    intro s hsm
    cases hsn : s.season_number with
    | none => exact absurd hsn (hs s hsm)
    | some v => rfl
  have hbody : ∀ (b : ℚ × Option TmdbEpisode) (s : SeasonStub),
      s ∈ sortedByKey (fun s => s.season_number.getD 0) series.seasons →
      fallbackSeasonStep env showId t b s =
        Except.ok (fallbackSeasonStepPure env showId t b s) := by
    intro b s hsm
    have hsmem : s ∈ series.seasons := (mem_sortedByKey _ _ _).mp hsm
    rw [fallbackSeasonStep, fallbackSeasonStepPure]
    by_cases hz : (s.season_number == some 0)
    · rw [if_pos hz, if_pos hz]; rfl
    · rw [if_neg hz, if_neg hz]
      have h2 : sortByKeyE (fun e => getKey e.episode_number)
          (env.seasonDetails showId s.season_number) =
          Except.ok (specEpisodes env showId s) := by
        rw [specEpisodes]
        apply sortByKeyE_ok
        intro e hem
        cases hev : e.episode_number with
        | none => exact absurd hev (he s hsmem e hem).1
        | some v => rfl
      rw [h2, exceptBind_ok]
      rfl
  have h2 := foldlM_ok (fallbackSeasonStep env showId t)
    (fallbackSeasonStepPure env showId t)
    (sortedByKey (fun s => s.season_number.getD 0) series.seasons)
    hbody ((0 : ℚ), (none : Option TmdbEpisode))
  have h3 : (sortedByKey (fun s => s.season_number.getD 0) series.seasons).foldl
      (fallbackSeasonStepPure env showId t) ((0 : ℚ), (none : Option TmdbEpisode)) =
      (specCands env showId series).foldl (bestStep t)
        ((0 : ℚ), (none : Option TmdbEpisode)) := by
    have hcands : specCands env showId series =
        (specSeasons series).bind (specEpisodes env showId) := rfl
    rw [hcands, foldl_bind']
    rw [show (fallbackSeasonStepPure env showId t) = (fun b s =>
        if (s.season_number == some 0) then b
        else (specEpisodes env showId s).foldl (bestStep t) b) from rfl]
    rw [foldl_skip]
    rfl
  rw [findFallback, h1, exceptBind_ok, h2, exceptBind_ok, h3]
  by_cases hle : cfg.titleSimilarityThreshold ≤
      ((specCands env showId series).foldl (bestStep t)
        ((0 : ℚ), (none : Option TmdbEpisode))).1
  · rw [if_pos hle, if_pos hle]
    rcases foldl_bestStep t (specCands env showId series)
        ((0 : ℚ), (none : Option TmdbEpisode)) with
      ⟨heq, _⟩ | ⟨i, hi, heq, _, _, _⟩
    · rw [heq] at hle
      exact absurd hle (not_le.mpr hθ)
    · simp only [heq]
      have hmem : (specCands env showId series).get ⟨i, hi⟩ ∈
          specCands env showId series := List.get_mem _ _ _
      obtain ⟨s, hsmem, hemem⟩ : ∃ s ∈ series.seasons,
          (specCands env showId series).get ⟨i, hi⟩ ∈
            env.seasonDetails showId s.season_number := by
        have hmem' : (specCands env showId series).get ⟨i, hi⟩ ∈
            (specSeasons series).bind (specEpisodes env showId) := hmem
        obtain ⟨s, hsm, hem⟩ := List.mem_bind.mp hmem'
        refine ⟨s, ?_, ?_⟩
        · rw [specSeasons] at hsm
          exact (mem_sortedByKey _ _ _).mp (List.mem_of_mem_filter hsm)
        · rw [specEpisodes] at hem
          exact (mem_sortedByKey _ _ _).mp hem
      have hwf := he s hsmem _ hemem
      cases hsn : ((specCands env showId series).get ⟨i, hi⟩).season_number with
      | none => exact absurd hsn hwf.2
      | some v =>
        cases hen : ((specCands env showId series).get ⟨i, hi⟩).episode_number with
        | none => exact absurd hen hwf.1
        | some w => rfl
  · rw [if_neg hle, if_neg hle]
    rfl

/-- C3: the title-similarity fallback iterates seasons in ascending
season-number order skipping season 0, episodes within a season in
ascending episode-number order, scores each candidate with the
case-insensitive matching-blocks ratio, tracks the maximum with a strict
`>` update (first seen wins ties), and returns the tracked candidate iff
its score reaches the configured threshold — NoMatch otherwise.  Stated
for a positive threshold and well-formed season/episode objects (the
malformed cases raise instead, see the C5 analysis). -/
theorem title_fallback_spec (env : Env) (cfg : Config) (showId : Int)
    (series : SeriesData) (t : String)
    (hθ : 0 < cfg.titleSimilarityThreshold)
    (hs : ∀ s ∈ series.seasons, s.season_number ≠ none)
    (he : ∀ s ∈ series.seasons, ∀ e ∈ env.seasonDetails showId s.season_number,
      e.episode_number ≠ none ∧ e.season_number ≠ none) :
    (∃ r, findFallback env cfg showId series t = Except.ok r) ∧
    (∀ e, findFallback env cfg showId series t = Except.ok (some e) →
      cfg.titleSimilarityThreshold ≤ scoreOf t e ∧
      ∃ i, ∃ hi : i < (specCands env showId series).length,
        (specCands env showId series).get ⟨i, hi⟩ = e ∧
        (∀ j, ∀ hj : j < (specCands env showId series).length,
          scoreOf t ((specCands env showId series).get ⟨j, hj⟩) ≤ scoreOf t e) ∧
        (∀ j, ∀ hj : j < (specCands env showId series).length, j < i →
          scoreOf t ((specCands env showId series).get ⟨j, hj⟩) < scoreOf t e)) ∧
    (findFallback env cfg showId series t = Except.ok none ↔
      ∀ j, ∀ hj : j < (specCands env showId series).length,
        scoreOf t ((specCands env showId series).get ⟨j, hj⟩) <
          cfg.titleSimilarityThreshold) ∧
    List.Pairwise (fun a b : SeasonStub =>
      a.season_number.getD 0 ≤ b.season_number.getD 0) (specSeasons series) ∧
    (∀ s ∈ specSeasons series, s.season_number ≠ some 0) ∧
    (∀ s, List.Pairwise (fun a b : TmdbEpisode =>
      a.episode_number.getD 0 ≤ b.episode_number.getD 0)
      (specEpisodes env showId s)) := by
  have heval := findFallback_eval env cfg showId series t hθ hs he
  refine ⟨⟨_, heval⟩, ?_, ?_, ?_, ?_, ?_⟩
  · intro e hsome
    rw [heval] at hsome
    rcases foldl_bestStep t (specCands env showId series)
        ((0 : ℚ), (none : Option TmdbEpisode)) with
      ⟨heq, _⟩ | ⟨i, hi, heq, _, hmax, hfirst⟩
    · rw [heq] at hsome
      rw [if_neg (not_le.mpr hθ)] at hsome
      exact absurd hsome (by simp)
    · rw [heq] at hsome
      by_cases hle : cfg.titleSimilarityThreshold ≤
          scoreOf t ((specCands env showId series).get ⟨i, hi⟩)
      · rw [if_pos hle] at hsome
        have hee : (specCands env showId series).get ⟨i, hi⟩ = e := by
          simpa using hsome
        subst hee
        exact ⟨hle, i, hi, rfl, hmax, hfirst⟩
      · rw [if_neg hle] at hsome
        exact absurd hsome (by simp)
  · constructor
    · intro hnone j hj
      rw [heval] at hnone
      rcases foldl_bestStep t (specCands env showId series)
          ((0 : ℚ), (none : Option TmdbEpisode)) with
        ⟨heq, hall⟩ | ⟨i, hi, heq, _, hmax, _⟩
      · exact lt_of_le_of_lt (hall j hj) hθ
      · rw [heq] at hnone
        by_cases hle : cfg.titleSimilarityThreshold ≤
            scoreOf t ((specCands env showId series).get ⟨i, hi⟩)
        · rw [if_pos hle] at hnone
          exact absurd hnone (by simp)
        · exact lt_of_le_of_lt (hmax j hj) (not_le.mp hle)
    · intro hall
      rw [heval]
      rcases foldl_bestStep t (specCands env showId series)
          ((0 : ℚ), (none : Option TmdbEpisode)) with
        ⟨heq, _⟩ | ⟨i, hi, heq, _, _, _⟩
      · rw [heq, if_neg (not_le.mpr hθ)]
      · rw [heq, if_neg (not_le.mpr (hall i hi))]
  · rw [specSeasons]
    exact List.Pairwise.filter _ (sortedByKey_pairwise _ _)
  · intro s hsm
    rw [specSeasons] at hsm
    have := List.of_mem_filter hsm
    intro h0
    rw [h0] at this
    simp at this
  · intro s
    exact sortedByKey_pairwise _ _

/-- Witness for C3: with threshold `0.5` and candidates named `zzz`
(score 0) then `abc` (score 1) against source title `abc`, the fallback
returns without raising, and the accepted candidate's score is at or
above the threshold. -/
theorem title_fallback_spec_witness :
    (∃ r, findFallback envFallback cfgHalf 5
      ⟨some ("X"), some ("2021-01-01"), [⟨some 1⟩]⟩ ("abc") = Except.ok r) ∧
    (mkRat 1 2 ≤ scoreOf ("abc") ⟨some 12, some 1, some 2, some ("abc")⟩) := by
  have h := title_fallback_spec envFallback cfgHalf 5
    ⟨some ("X"), some ("2021-01-01"), [⟨some 1⟩]⟩ ("abc")
    (by norm_num [cfgHalf]) (by decide) (by decide)
  refine ⟨h.1, ?_⟩
  have h2 := h.2.1 ⟨some 12, some 1, some 2, some ("abc")⟩ (by rfl)
  exact h2.1

/-- Counterexample to C5: a malformed season object (no `season_number`
key) makes the engine raise (`KeyError` inside `sorted(...)`) for a
`'Normal'` episode with a title — it does not return `(None, None)`. -/
theorem engine_raises_on_malformed_season :
    determinePath envMalformedSeason cfgSimple
      ⟨[], [], some ("Normal"), some ("T"), [], []⟩ ("f.mkv") [⟨[], some [5]⟩] =
      Except.error PyErr.keyError := by
  rfl

/-- C5 amended: the engine returns NoMatch `(None, None)` without raising
for the expected data-shape gaps — no series cross-reference, no TMDb show
link, an empty show-ID list, a failed series fetch, a `'Normal'` episode
with no IDs and a missing/empty title, an empty season list, and seasons
with no candidate episodes (the latter two under a positive similarity
threshold).  Malformed season/episode objects instead raise, and the
exception propagates to the per-file handler (see the counterexample). -/
theorem engine_nomatch_on_gaps (env : Env) (cfg : Config) :
    (∀ (ep : EpDetails) (orig : String), ep.idsTmdbMovie = [] →
      determinePath env cfg ep orig [] = Except.ok none) ∧
    (∀ (ep : EpDetails) (orig : String) (se : SeriesEntry) (rest : List SeriesEntry),
      ep.idsTmdbMovie = [] → se.tmdbShow = none →
      determinePath env cfg ep orig (se :: rest) = Except.ok none) ∧
    (∀ (ep : EpDetails) (orig : String) (se : SeriesEntry) (rest : List SeriesEntry),
      ep.idsTmdbMovie = [] → se.tmdbShow = some [] →
      determinePath env cfg ep orig (se :: rest) = Except.ok none) ∧
    (∀ (ep : EpDetails) (orig : String) (se : SeriesEntry) (rest : List SeriesEntry)
      (showId : Int) (more : List Int),
      ep.idsTmdbMovie = [] → se.tmdbShow = some (showId :: more) →
      env.seriesDetails showId = none →
      determinePath env cfg ep orig (se :: rest) = Except.ok none) ∧
    (∀ (ep : EpDetails) (orig : String) (se : SeriesEntry) (rest : List SeriesEntry)
      (showId : Int) (more : List Int) (series : SeriesData),
      ep.idsTmdbMovie = [] → se.tmdbShow = some (showId :: more) →
      env.seriesDetails showId = some series →
      ep.idsTmdbEpisode = [] → ep.anidbType = some ("Normal") →
      (ep.name = none ∨ ep.name = some ("")) →
      determinePath env cfg ep orig (se :: rest) = Except.ok none) ∧
    (∀ (ep : EpDetails) (orig : String) (se : SeriesEntry) (rest : List SeriesEntry)
      (showId : Int) (more : List Int) (series : SeriesData) (t : String),
      ep.idsTmdbMovie = [] → se.tmdbShow = some (showId :: more) →
      env.seriesDetails showId = some series →
      ep.idsTmdbEpisode = [] → ep.anidbType = some ("Normal") →
      ep.name = some t → t ≠ "" → series.seasons = [] →
      0 < cfg.titleSimilarityThreshold →
      determinePath env cfg ep orig (se :: rest) = Except.ok none) ∧
    (∀ (ep : EpDetails) (orig : String) (se : SeriesEntry) (rest : List SeriesEntry)
      (showId : Int) (more : List Int) (series : SeriesData) (t : String),
      ep.idsTmdbMovie = [] → se.tmdbShow = some (showId :: more) →
      env.seriesDetails showId = some series →
      ep.idsTmdbEpisode = [] → ep.anidbType = some ("Normal") →
      ep.name = some t → t ≠ "" →
      (∀ s ∈ series.seasons, s.season_number ≠ none) →
      (∀ s ∈ series.seasons, env.seasonDetails showId s.season_number = []) →
      0 < cfg.titleSimilarityThreshold →
      determinePath env cfg ep orig (se :: rest) = Except.ok none) := by
  have hshow : ∀ (ep : EpDetails) (orig : String) (se : SeriesEntry)
      (rest : List SeriesEntry), ep.idsTmdbMovie = [] →
      determinePath env cfg ep orig (se :: rest) =
        handleShowPathing env cfg ep orig (se :: rest) := by
    intro ep orig se rest hmv
    rw [determinePath, hmv]
  refine ⟨?_, ?_, ?_, ?_, ?_, ?_, ?_⟩
  · intro ep orig hm
    rw [determinePath, hm, handleShowPathing]
    rfl
  · intro ep orig se rest hm hl
    rw [hshow ep orig se rest hm, handleShowPathing]
    simp only [hl]
    rfl
  · intro ep orig se rest hm hl
    rw [hshow ep orig se rest hm, handleShowPathing]
    simp only [hl]
    rfl
  · intro ep orig se rest showId more hm hl hsd
    rw [hshow ep orig se rest hm, handleShowPathing]
    simp only [hl, hsd]
    rfl
  · intro ep orig se rest showId more series hm hl hsd hids htype hname
    rw [hshow ep orig se rest hm, handleShowPathing]
    have hfound : findTvEpisode env cfg ep showId series = Except.ok none := by
      rw [findTvEpisode, hids]
      rcases hname with hname | hname
      · simp [htype, hname]
        rfl
      · simp [htype, hname]
        rfl
    simp only [hl, hsd, hfound, exceptBind_ok]
    simp [htype]
    rfl
  · intro ep orig se rest showId more series t hm hl hsd hids htype hname hne hseasons hθ
    rw [hshow ep orig se rest hm, handleShowPathing]
    have hfb : findFallback env cfg showId series t = Except.ok none := by
      have := findFallback_eval env cfg showId series t hθ
        (by rw [hseasons]; intro s hx; simp at hx)
        (by rw [hseasons]; intro s hx; simp at hx)
      rw [this]
      have hc : specCands env showId series = [] := by
        rw [specCands, specSeasons, sortedByKey, hseasons]
        rfl
      rw [hc]
      show Except.ok (if cfg.titleSimilarityThreshold ≤ (0 : ℚ) then
        (none : Option TmdbEpisode) else none) = Except.ok none
      rw [if_neg (not_le.mpr hθ)]
    have hfound : findTvEpisode env cfg ep showId series = Except.ok none := by
      rw [findTvEpisode, hids]
      simp [htype, hname, hne, hfb]
      rfl
    simp only [hl, hsd, hfound, exceptBind_ok]
    simp [htype]
    rfl
  · intro ep orig se rest showId more series t hm hl hsd hids htype hname hne hs hd hθ
    rw [hshow ep orig se rest hm, handleShowPathing]
    have hfb : findFallback env cfg showId series t = Except.ok none := by
      have heval := findFallback_eval env cfg showId series t hθ hs
        (fun s hsm e hem => by rw [hd s hsm] at hem; exact absurd hem (by simp))
      rw [heval]
      have hc : specCands env showId series = [] := by
        rw [List.eq_nil_iff_forall_not_mem]
        intro e hmem
        have hmem' : e ∈ (specSeasons series).bind (specEpisodes env showId) := hmem
        obtain ⟨s, hsm, hem⟩ := List.mem_bind.mp hmem'
        have hsmem : s ∈ series.seasons := by
          rw [specSeasons] at hsm
          exact (mem_sortedByKey _ _ _).mp (List.mem_of_mem_filter hsm)
        rw [specEpisodes] at hem
        have := (mem_sortedByKey _ _ _).mp hem
        rw [hd s hsmem] at this
        simp at this
      rw [hc]
      show Except.ok (if cfg.titleSimilarityThreshold ≤ (0 : ℚ) then
        (none : Option TmdbEpisode) else none) = Except.ok none
      rw [if_neg (not_le.mpr hθ)]
    have hfound : findTvEpisode env cfg ep showId series = Except.ok none := by
      rw [findTvEpisode, hids]
      simp [htype, hname, hne, hfb]
      rfl
    simp only [hl, hsd, hfound, exceptBind_ok]
    simp [htype]
    rfl

/-- Witness for the amended C5: a failed series-details fetch yields
NoMatch without raising. -/
theorem engine_nomatch_on_gaps_witness :
    determinePath envGroupOk cfgSimple
      ⟨[], [], some ("Normal"), some ("T"), [], []⟩ ("f.mkv")
      [⟨[], some [5]⟩] = Except.ok none := by
  have h := (engine_nomatch_on_gaps envGroupOk cfgSimple).2.2.2.1
    ⟨[], [], some ("Normal"), some ("T"), [], []⟩ ("f.mkv")
    ⟨[], some [5]⟩ [] 5 [] rfl rfl rfl
  exact h

end ShokoBridge
